import Mathlib

/-!
Verification of the rule-synchronization engine of `proxmox_geoip_firewall/main.py`
(a geoip-based firewall updater built on `ipset` and `iptables`).

The embedding is a shallow one.  Every external effect the script performs
(network requests, file writes, `ipset`/`iptables` invocations) is recorded in
an explicit `Effect` trace, and all the data the script consults (the remote
server, the persisted baseline files, the kernel's set inventory and rule
chains, the outcomes of the external commands) is passed in explicitly:

* `FS` models the three persisted files (`last-check.txt`, the hash file,
  and the decompressed mmdb database file).  The content hash stored in the
  hash file is modelled as the (collision-free) fingerprint of the database
  content itself, i.e. as a `Db` value: two files have equal sha256 hashes
  exactly when their contents are equal.
* `Kernel` models the kernel-resident state the script touches: the list of
  ipset names, and the two `INPUT` chains, where each rule is abstracted to
  the marker visible in its `iptables -L` line (`geoip-firewall-drop`
  comment, some other `geoip-firewall` comment, or a foreign rule).
* `Remote` models the monthly database URL: absent (HTTP 404), available
  with given `Last-Modified|Content-Length` metadata and content, or a
  transport error (which the script lets propagate as an exception).
* `Env` carries the success/failure outcome of each external command
  (`urlretrieve`+`gunzip`, `ipset create/flush/restore`, `iptables -A`,
  `maxminddb` importability, ...), so that partial-failure behaviour can be
  stated for every combination of outcomes.

Functions keep the names of the Python functions they embed.  A run of the
orchestrator returns `none` when the script would raise an uncaught exception
(propagated out of `smart_update` to `main`) or hang in a scan-delete loop
(the loops in `cleanup_existing_ipsets` are given explicit fuel), and
otherwise `some (returnValue, finalState, effectTrace)`.
-/

/-- Address family: `iptables` (v4) versus `ip6tables` (v6). -/
inductive Family
  | v4
  | v6
deriving DecidableEq, Repr

/-- One appended firewall rule, abstracted to its kind; the comment tag and
the concrete `iptables` arguments are determined by the kind (see
`setup_firewall_rules` in the source). -/
inductive Rule
  | stateful
  | localhost
  | privateNet (cidr : String)
  | countryLogAccept (cc : String)
  | countryAccept (cc : String)
  | countryLogDrop (cc : String)
  | countryDrop (cc : String)
  | defaultLog
  | defaultDrop
deriving DecidableEq, Repr

/-- What an `iptables -L INPUT` line shows of an existing rule: the
`geoip-firewall-drop` comment, some other `geoip-firewall*` comment, or a
rule this system did not create. -/
inductive Marker
  | geoipDrop
  | geoipOther
  | foreign
deriving DecidableEq, Repr

/-- Content of the decompressed geolocation database file.  A readable
database is the list of its records; each record optionally carries a
resolvable ISO country code (`data.country.iso_code`) and its network in
CIDR text form. -/
inductive Db
  | corrupt
  | good (records : List (Option String × String))
deriving DecidableEq, Repr

/-- The persisted files: `last-check.txt` (remote metadata string), the
content-hash file (modelled as the fingerprinted content), and the mmdb
database file.  `none` means the file is absent. -/
structure FS where
  lastCheck : Option String
  hashFile : Option Db
  mmdb : Option Db
deriving DecidableEq, Repr

/-- Kernel-resident state: ipset names and the two INPUT chains. -/
structure Kernel where
  sets : List String
  chainV4 : List Marker
  chainV6 : List Marker
deriving DecidableEq, Repr

/-- Full mutable state a run starts from. -/
structure Sys where
  fs : FS
  kernel : Kernel
deriving DecidableEq, Repr

/-- The remote monthly database file as seen by this run. -/
inductive Remote
  | notFound
  | avail (meta : String) (content : Db)
  | checkError
deriving DecidableEq, Repr

/-- External effects, in the order the script performs them. -/
inductive Effect
  | headRequest
  | downloadDb
  | writeLastCheck (meta : String)
  | writeHash (d : Db)
  | writeMmdb
  | deleteLastCheck
  | deleteHash
  | ipsetCreate (name : String)
  | ipsetFlush (name : String)
  | ipsetRestore (name : String) (ips : List String)
  | ipsetDestroy (name : String)
  | iptablesDelete (fam : Family)
  | iptablesAppend (fam : Family) (r : Rule)
deriving DecidableEq, Repr

/-- Effects that mutate kernel packet-filter state (address-set or
rule-chain operations). -/
def Effect.isKernelMutation : Effect → Bool
  | .ipsetCreate _ => true
  | .ipsetFlush _ => true
  | .ipsetRestore _ _ => true
  | .ipsetDestroy _ => true
  | .iptablesDelete _ => true
  | .iptablesAppend _ _ => true
  | _ => false

/-- Effects that touch the network. -/
def Effect.isNetwork : Effect → Bool
  | .headRequest => true
  | .downloadDb => true
  | _ => false

/-- Embedding of Python `s.startswith(p)` via the character lists. -/
def pyStartsWith (s p : String) : Bool :=
  p.data.isPrefixOf s.data

/-- Embedding of Python `":" in s`. -/
def pyContainsColon (s : String) : Bool :=
  s.data.contains ':'

/-- Source: `CONFIG["ALLOWED_COUNTRIES"]`. -/
def ALLOWED_COUNTRIES : List String := ["KR"]

/-- Source: `CONFIG["PRIVATE_NETWORKS_V4"]`. -/
def PRIVATE_NETWORKS_V4 : List String :=
  ["10.0.0.0/8", "172.16.0.0/12", "192.168.0.0/16", "169.254.0.0/16"]

/-- Source: `CONFIG["PRIVATE_NETWORKS_V6"]`. -/
def PRIVATE_NETWORKS_V6 : List String :=
  ["fc00::/7", "fe80::/10"]

/-- Source: `check_remote_file_changed`: HEAD request, compare
`Last-Modified|Content-Length` against `last-check.txt`; on 404 report "no
change"; on a match report "no change"; otherwise persist the new metadata
immediately and report "changed".  `none` models the uncaught re-raised
exception on any other transport error. -/
def check_remote_file_changed (remote : Remote) (fs : FS) :
    Option (Bool × FS × List Effect) :=
  match remote with
  | Remote.checkError => none
  | Remote.notFound => some (false, fs, [Effect.headRequest])
  | Remote.avail meta _ =>
      if fs.lastCheck = some meta then
        some (false, fs, [Effect.headRequest])
      else
        some (true, { fs with lastCheck := some meta },
          [Effect.headRequest, Effect.writeLastCheck meta])

/-- Source: `check_file_hash_changed` on the file whose content is `d`: compare the
content hash with the hash file; on a match report "unchanged"; otherwise
persist the new hash immediately and report "changed". -/
def check_file_hash_changed (fs : FS) (d : Db) : Bool × FS × List Effect :=
  if fs.hashFile = some d then
    (false, fs, [])
  else
    (true, { fs with hashFile := some d }, [Effect.writeHash d])

/-- Source: `download_dbip_database`: fetch the archive and decompress it over the
mmdb file.  Returns the new file content on success (`True` in the source),
`none` on any failure (404, transport error, decompress error), in which
case the source catches the exception and returns `False`. -/
def download_dbip_database (remote : Remote) (downloadOk : Bool) (fs : FS) :
    Option Db × FS × List Effect :=
  match remote with
  | Remote.avail _ content =>
      if downloadOk then
        (some content, { fs with mmdb := some content },
          [Effect.downloadDb, Effect.writeMmdb])
      else (none, fs, [Effect.downloadDb])
  | _ => (none, fs, [Effect.downloadDb])

/-- Append `cidr` to the list of ranges of country `cc`, creating the entry
at the end on first sight — exactly the insertion-ordered dict update in
`parse_mmdb_to_country_ipranges`. -/
def insertRange (m : List (String × List String)) (cc cidr : String) :
    List (String × List String) :=
  match m with
  | [] => [(cc, [cidr])]
  | (c, rs) :: rest =>
      if c = cc then (c, rs ++ [cidr]) :: rest
      else (c, rs) :: insertRange rest cc cidr

/-- Fold of the record loop in `parse_mmdb_to_country_ipranges`: records
without a resolvable country code are skipped, the rest are appended to
their country's list. -/
def parseRecords (records : List (Option String × String)) :
    List (String × List String) :=
  records.foldl
    (fun m r =>
      match r.1 with
      | none => m
      | some cc => insertRange m cc r.2) []

/-- Source: `parse_mmdb_to_country_ipranges`: empty map when the `maxminddb`
dependency is unavailable, the file is missing (`open_database` raises), or
the file is corrupt; otherwise the CountryRangeMap. -/
def parse_mmdb_to_country_ipranges (importOk : Bool) (mmdb : Option Db) :
    List (String × List String) :=
  if importOk then
    match mmdb with
    | none => []
    | some Db.corrupt => []
    | some (Db.good records) => parseRecords records
  else []

/-- Outcomes of the external commands `cleanup_existing_ipsets` runs:
whether `iptables -L` produces output, whether an issued `iptables -D`
actually removes the listed rule, whether `ipset list -n` produces output,
and whether an issued `ipset destroy` succeeds.  None of these commands is
run with `check=True`, so a failure is silent. -/
structure CleanupEnv where
  listOk : Bool
  deleteOk : Bool
  ipsetListOk : Bool
  destroyOk : String → Bool

/-- Lines matched by the first scan loop (`"geoip-firewall-drop" in line`). -/
def lineMatchesDrop : Marker → Bool
  | Marker.geoipDrop => true
  | _ => false

/-- Lines matched by the second scan loop (`"geoip-firewall" in line`). -/
def lineMatchesGeoip : Marker → Bool
  | Marker.geoipDrop => true
  | Marker.geoipOther => true
  | Marker.foreign => false

/-- Remove the first rule matching `p` from a chain (what a successful
`iptables -D INPUT line_num` does for the first matching listed line). -/
def removeFirst (p : Marker → Bool) : List Marker → List Marker
  | [] => []
  | m :: rest => if p m then rest else m :: removeFirst p rest

/-- One scan-then-delete `while True` loop of `cleanup_existing_ipsets`:
re-list the chain, delete the first line matching `p`, repeat until no line
matches.  Each iteration that finds a match issues one `iptables -D`.  If
the delete silently fails (`deleteOk = false`) the same rule is found again
on the next scan and the loop never terminates; `none` means the fuel ran
out without the loop having terminated. -/
def dropLoop (deleteOk : Bool) (p : Marker → Bool) (fam : Family) :
    Nat → List Marker → Option (List Marker × List Effect)
  | 0, _ => none
  | fuel + 1, chain =>
      if chain.any p then
        let chain' := if deleteOk then removeFirst p chain else chain
        match dropLoop deleteOk p fam fuel chain' with
        | none => none
        | some (c, es) => some (c, Effect.iptablesDelete fam :: es)
      else some (chain, [])

/-- Both scan-delete loops for one family's INPUT chain.  When the listing
command fails its output is empty, no line matches, and both loops end
immediately with the chain untouched. -/
def cleanupChain (ce : CleanupEnv) (fam : Family) (fuel : Nat)
    (chain : List Marker) : Option (List Marker × List Effect) :=
  if ce.listOk then
    match dropLoop ce.deleteOk lineMatchesDrop fam fuel chain with
    | none => none
    | some (c1, es1) =>
        match dropLoop ce.deleteOk lineMatchesGeoip fam fuel c1 with
        | none => none
        | some (c2, es2) => some (c2, es1 ++ es2)
  else some (chain, [])

/-- The naming-convention filter of `cleanup_existing_ipsets`:
`s.startswith("country-") or s.startswith("geoip-")`. -/
def isGeoipSetName (s : String) : Bool :=
  pyStartsWith s "country-" || pyStartsWith s "geoip-"

/-- Source: `cleanup_existing_ipsets`: delete every `geoip-firewall`-commented rule
from both INPUT chains (drop rules first), then destroy every ipset whose
name matches the naming convention.  Every command failure is silent or
swallowed, and the function returns `True` whenever it terminates; `none`
models a scan-delete loop that never terminates. -/
def cleanup_existing_ipsets (ce : CleanupEnv) (fuel : Nat) (k : Kernel) :
    Option (Bool × Kernel × List Effect) :=
  match cleanupChain ce Family.v4 fuel k.chainV4 with
  | none => none
  | some (c4, e4) =>
      match cleanupChain ce Family.v6 fuel k.chainV6 with
      | none => none
      | some (c6, e6) =>
          let targets := if ce.ipsetListOk then k.sets.filter isGeoipSetName else []
          let remaining := k.sets.filter
            (fun s => !(isGeoipSetName s && ce.ipsetListOk && ce.destroyOk s))
          some (true, { sets := remaining, chainV4 := c4, chainV6 := c6 },
            e4 ++ e6 ++ targets.map Effect.ipsetDestroy)

/-- Outcomes of the external commands of a whole run (the cleanup ones are
bundled separately since they are never checked). -/
structure Env where
  remote : Remote
  downloadOk : Bool
  importOk : Bool
  listOk : Bool
  createOk : String → Bool
  flushOk : String → Bool
  restoreOk : String → Bool
  iptOk : Family → Rule → Bool
  cleanup : CleanupEnv

/-- Source: `"country-" + country_code`. -/
def setNameV4 (cc : String) : String := "country-" ++ cc

/-- Source: `"country-" + country_code + "-v6"`. -/
def setNameV6 (cc : String) : String := "country-" ++ cc ++ "-v6"

/-- The `ipset create`/`flush`/`ipset restore` step for one named set: each
command is attempted in order and a `CalledProcessError` (non-zero exit)
aborts.  The create uses `-exist`, so an already existing set stays and a
new one is recorded; set membership contents are not tracked, only the
bulk-add batch itself (which carries the prefixes). -/
def applySet (env : Env) (name : String) (ips : List String) (k : Kernel) :
    Bool × Kernel × List Effect :=
  if env.createOk name then
    let k' := if k.sets.contains name then k else { k with sets := k.sets ++ [name] }
    if env.flushOk name then
      if env.restoreOk name then
        (true, k', [Effect.ipsetCreate name, Effect.ipsetFlush name,
          Effect.ipsetRestore name ips])
      else
        (false, k', [Effect.ipsetCreate name, Effect.ipsetFlush name,
          Effect.ipsetRestore name ips])
    else (false, k', [Effect.ipsetCreate name, Effect.ipsetFlush name])
  else (false, k, [Effect.ipsetCreate name])

/-- The body of the per-country loop of `apply_native_ipset`: split the
country's ranges by the presence of a colon, then create/flush/bulk-load the
IPv4 set (if any IPv4 range) and the IPv6 set (if any IPv6 range). -/
def applyCountry (env : Env) (cc : String) (ranges : List String) (k : Kernel) :
    Bool × Kernel × List Effect :=
  let ipv6 := ranges.filter pyContainsColon
  let ipv4 := ranges.filter (fun s => !pyContainsColon s)
  if ipv4.isEmpty then
    if ipv6.isEmpty then (true, k, [])
    else applySet env (setNameV6 cc) ipv6 k
  else
    match applySet env (setNameV4 cc) ipv4 k with
    | (false, k', es) => (false, k', es)
    | (true, k', es) =>
        if ipv6.isEmpty then (true, k', es)
        else
          match applySet env (setNameV6 cc) ipv6 k' with
          | (b, k'', es') => (b, k'', es ++ es')

/-- The per-country loop: the first `CalledProcessError` makes the whole
function return `False`. -/
def applyLoop (env : Env) :
    List (String × List String) → Kernel → Bool × Kernel × List Effect
  | [], k => (true, k, [])
  | (cc, rs) :: rest, k =>
      match applyCountry env cc rs k with
      | (false, k', es) => (false, k', es)
      | (true, k', es) =>
          match applyLoop env rest k' with
          | (b, k'', es') => (b, k'', es ++ es')

/-- Source: `apply_native_ipset` (it also records `ALL_COUNTRIES := m.keys`, which
the caller passes on to `setup_firewall_rules` as the `all` argument). -/
def apply_native_ipset (env : Env) (m : List (String × List String))
    (k : Kernel) : Bool × Kernel × List Effect :=
  applyLoop env m k

/-- Source: `iptables -L` marker of each rule `setup_firewall_rules` appends: the
per-country DROP rules and the default DROP carry the comment
`geoip-firewall-drop`; every other rule carries some other
`geoip-firewall*` comment. -/
def markerOf : Rule → Marker
  | Rule.countryDrop _ => Marker.geoipDrop
  | Rule.defaultDrop => Marker.geoipDrop
  | _ => Marker.geoipOther

/-- Append one rule to the INPUT chain of its family. -/
def appendToChain (k : Kernel) (fam : Family) (r : Rule) : Kernel :=
  match fam with
  | Family.v4 => { k with chainV4 := k.chainV4 ++ [markerOf r] }
  | Family.v6 => { k with chainV6 := k.chainV6 ++ [markerOf r] }

/-- Ordered concatenation of lists (the embedding avoids depending on the
library's flat-map so the induction lemmas below stay self-contained). -/
def concatMap (f : α → List β) : List α → List β
  | [] => []
  | a :: as => f a ++ concatMap f as

/-- The pair of rules added for one allowed country: for each family, the
`-name` existence probe of that family's set decides whether the
log-new-connection rule and the accept rule are appended. -/
def allowedCountryRules (ex : String → Bool) (cc : String) :
    List (Family × Rule) :=
  (if ex (setNameV4 cc) then
    [(Family.v4, Rule.countryLogAccept cc), (Family.v4, Rule.countryAccept cc)]
   else [])
  ++ (if ex (setNameV6 cc) then
    [(Family.v6, Rule.countryLogAccept cc), (Family.v6, Rule.countryAccept cc)]
   else [])

/-- Same for one blocked country, with log + drop. -/
def blockedCountryRules (ex : String → Bool) (cc : String) :
    List (Family × Rule) :=
  (if ex (setNameV4 cc) then
    [(Family.v4, Rule.countryLogDrop cc), (Family.v4, Rule.countryDrop cc)]
   else [])
  ++ (if ex (setNameV6 cc) then
    [(Family.v6, Rule.countryLogDrop cc), (Family.v6, Rule.countryDrop cc)]
   else [])

/-- The exact sequence of `iptables`/`ip6tables -A INPUT` commands
`setup_firewall_rules` issues, in source order: stateful accepts, loopback
accepts, private-network accepts, per-allowed-country log+accept,
per-blocked-country log+drop (blocked = `ALL_COUNTRIES` minus the
allow-list), default log+drop per family. -/
def setupSequence (allowed all : List String) (ex : String → Bool) :
    List (Family × Rule) :=
  [(Family.v4, Rule.stateful), (Family.v6, Rule.stateful),
   (Family.v4, Rule.localhost), (Family.v6, Rule.localhost)]
  ++ PRIVATE_NETWORKS_V4.map (fun n => (Family.v4, Rule.privateNet n))
  ++ PRIVATE_NETWORKS_V6.map (fun n => (Family.v6, Rule.privateNet n))
  ++ concatMap (allowedCountryRules ex) allowed
  ++ concatMap (blockedCountryRules ex)
      (all.filter (fun c => !(allowed.contains c)))
  ++ [(Family.v4, Rule.defaultLog), (Family.v4, Rule.defaultDrop),
      (Family.v6, Rule.defaultLog), (Family.v6, Rule.defaultDrop)]

/-- Issue the appends in order; the first `CalledProcessError` makes the
function return `False` (each `subprocess.run` here has `check=True`). -/
def setupLoop (env : Env) :
    List (Family × Rule) → Kernel → Bool × Kernel × List Effect
  | [], k => (true, k, [])
  | (f, r) :: rest, k =>
      if env.iptOk f r then
        match setupLoop env rest (appendToChain k f r) with
        | (b, k', es) => (b, k', Effect.iptablesAppend f r :: es)
      else (false, k, [Effect.iptablesAppend f r])

/-- Source: `setup_firewall_rules` (the existence probes read the kernel's current
set inventory, which no append changes). -/
def setup_firewall_rules (env : Env) (allowed all : List String) (k : Kernel) :
    Bool × Kernel × List Effect :=
  setupLoop env (setupSequence allowed all (fun n => k.sets.contains n)) k

/-- The common tail of `smart_update` after the state classification:
parse the mmdb (empty map is a hard failure), clean up existing
rules/sets, apply the address sets, and only if that succeeded rebuild the
rule chain with `CONFIG["ALLOWED_COUNTRIES"]` against `ALL_COUNTRIES`. -/
def rebuildPhase (env : Env) (fuel : Nat) (s : Sys) :
    Option (Bool × Sys × List Effect) :=
  let m := parse_mmdb_to_country_ipranges env.importOk s.fs.mmdb
  if m.isEmpty then some (false, s, [])
  else
    match cleanup_existing_ipsets env.cleanup fuel s.kernel with
    | none => none
    | some (_, k1, ce) =>
        match apply_native_ipset env m k1 with
        | (false, k2, ae) => some (false, { s with kernel := k2 }, ce ++ ae)
        | (true, k2, ae) =>
            match setup_firewall_rules env ALLOWED_COUNTRIES
                (m.map (fun p => p.1)) k2 with
            | (b, k3, se) => some (b, { s with kernel := k3 }, ce ++ ae ++ se)

/-- Source: `ipset_count` as `smart_update` computes it: the number of listed set
names starting with `country-`, or `0` when `ipset list -n` raises. -/
def countryCount (env : Env) (k : Kernel) : Nat :=
  if env.listOk then
    (k.sets.filter (fun s => pyStartsWith s "country-")).length
  else 0

/-- Source: `smart_update`: classify the observed state (sets present? database
file present?) and sequence the phases accordingly.  `none` models an
uncaught exception (remote-check transport error) or a hung cleanup loop. -/
def smart_update (env : Env) (fuel : Nat) (s : Sys) :
    Option (Bool × Sys × List Effect) :=
  if countryCount env s.kernel = 0 then
    match s.fs.mmdb with
    | some d =>
        -- reboot recovery: reuse the file; persist the hash if absent
        if s.fs.hashFile.isNone then
          match check_file_hash_changed s.fs d with
          | (_, fs1, es1) =>
              match rebuildPhase env fuel { s with fs := fs1 } with
              | none => none
              | some (b, s', es') => some (b, s', es1 ++ es')
        else rebuildPhase env fuel s
    | none =>
        -- first install: discard stale baselines, download fresh
        let fs1 : FS := { s.fs with lastCheck := none, hashFile := none }
        let es1 : List Effect := [Effect.deleteLastCheck, Effect.deleteHash]
        match download_dbip_database env.remote env.downloadOk fs1 with
        | (none, fs2, es2) => some (false, { s with fs := fs2 }, es1 ++ es2)
        | (some _, fs2, es2) =>
            match rebuildPhase env fuel { s with fs := fs2 } with
            | none => none
            | some (b, s', es') => some (b, s', es1 ++ es2 ++ es')
  else
    match s.fs.mmdb with
    | some _ =>
        -- steady state: metadata check, download, content-hash check
        match check_remote_file_changed env.remote s.fs with
        | none => none
        | some (false, fs1, es1) => some (true, { s with fs := fs1 }, es1)
        | some (true, fs1, es1) =>
            match download_dbip_database env.remote env.downloadOk fs1 with
            | (none, fs2, es2) => some (false, { s with fs := fs2 }, es1 ++ es2)
            | (some d, fs2, es2) =>
                match check_file_hash_changed fs2 d with
                | (false, fs3, es3) =>
                    some (true, { s with fs := fs3 }, es1 ++ es2 ++ es3)
                | (true, fs3, es3) =>
                    match rebuildPhase env fuel { s with fs := fs3 } with
                    | none => none
                    | some (b, s', es') =>
                        some (b, s', es1 ++ es2 ++ es3 ++ es')
    | none =>
        -- inconsistent: sets but no database; force a re-download
        match download_dbip_database env.remote env.downloadOk s.fs with
        | (none, fs2, es2) => some (false, { s with fs := fs2 }, es2)
        | (some _, fs2, es2) =>
            match rebuildPhase env fuel { s with fs := fs2 } with
            | none => none
            | some (b, s', es') => some (b, s', es2 ++ es')

/-- Return value of a run (`False` also when the run never returned). -/
def runSucceeds (r : Option (Bool × Sys × List Effect)) : Bool :=
  match r with
  | some (b, _, _) => b
  | none => false

/-- Effect trace of a run. -/
def effectsOf (r : Option (Bool × Sys × List Effect)) : List Effect :=
  match r with
  | some (_, _, es) => es
  | none => []

/-- State a run leaves behind (the starting state when it never returned). -/
def sysAfter (r : Option (Bool × Sys × List Effect)) (dflt : Sys) : Sys :=
  match r with
  | some (_, s, _) => s
  | none => dflt

/-- Number of kernel-mutating effects in a run's trace. -/
def kernelMutationCount (r : Option (Bool × Sys × List Effect)) : Nat :=
  ((effectsOf r).filter Effect.isKernelMutation).length

/-- Number of network effects in a run's trace. -/
def networkCount (r : Option (Bool × Sys × List Effect)) : Nat :=
  ((effectsOf r).filter Effect.isNetwork).length

/-- Rule-append effects (`iptables -A` / `ip6tables -A`). -/
def Effect.isRuleAppend : Effect → Bool
  | .iptablesAppend _ _ => true
  | _ => false

/-- Address-set write effects issued by `apply_native_ipset`
(`ipset create` / `ipset flush` / `ipset restore`). -/
def Effect.isIpsetWrite : Effect → Bool
  | .ipsetCreate _ => true
  | .ipsetFlush _ => true
  | .ipsetRestore _ _ => true
  | _ => false

/-- The rule chain of one family that an effect trace appends, in order. -/
def chainRules (f : Family) (es : List Effect) : List Rule :=
  es.filterMap (fun e =>
    match e with
    | Effect.iptablesAppend f' r => if f' = f then some r else none
    | _ => none)

/-- Projection of an append sequence onto one family. -/
def familyProj (f : Family) (seq : List (Family × Rule)) : List Rule :=
  seq.filterMap (fun p => if p.1 = f then some p.2 else none)

/-- The set name `setup_firewall_rules` probes for a country in a family. -/
def familySetName (f : Family) (cc : String) : String :=
  match f with
  | Family.v4 => setNameV4 cc
  | Family.v6 => setNameV6 cc

/-- Private-network accept rules of one family, in configuration order. -/
def privateRules (f : Family) : List Rule :=
  match f with
  | Family.v4 => PRIVATE_NETWORKS_V4.map Rule.privateNet
  | Family.v6 => PRIVATE_NETWORKS_V6.map Rule.privateNet

/-- Log+accept pairs of one family for the allowed countries whose set of
that family exists. -/
def acceptSection (ex : String → Bool) (f : Family) (allowed : List String) :
    List Rule :=
  concatMap (fun cc =>
    if ex (familySetName f cc) then
      [Rule.countryLogAccept cc, Rule.countryAccept cc]
    else []) allowed

/-- Log+drop pairs of one family for the blocked countries whose set of
that family exists. -/
def dropSection (ex : String → Bool) (f : Family) (blocked : List String) :
    List Rule :=
  concatMap (fun cc =>
    if ex (familySetName f cc) then
      [Rule.countryLogDrop cc, Rule.countryDrop cc]
    else []) blocked

/-- The chain of one family in the fixed order of §3 of the specification:
stateful accept, loopback accept, private-network accepts, per-allowed
log+accept, per-blocked log+drop, default log+drop. -/
def expectedChain (allowed all : List String) (ex : String → Bool)
    (f : Family) : List Rule :=
  [Rule.stateful, Rule.localhost] ++ privateRules f
  ++ acceptSection ex f allowed
  ++ dropSection ex f (all.filter (fun c => !(allowed.contains c)))
  ++ [Rule.defaultLog, Rule.defaultDrop]

/-- Positional index of the first occurrence of a rule in a chain (the
chain's length when absent). -/
def rulePos (r : Rule) : List Rule → Nat
  | [] => 0
  | x :: xs => if x = r then 0 else rulePos r xs + 1

/-- Names passed to `ipset destroy` in a trace, in order. -/
def destroyedNames (es : List Effect) : List String :=
  es.filterMap (fun e =>
    match e with
    | Effect.ipsetDestroy n => some n
    | _ => none)

/-- Some create/flush/bulk-populate command attempted in the trace failed. -/
def stepFailure (env : Env) (es : List Effect) : Prop :=
  (∃ n, Effect.ipsetCreate n ∈ es ∧ env.createOk n = false) ∨
  (∃ n, Effect.ipsetFlush n ∈ es ∧ env.flushOk n = false) ∨
  (∃ n ips, Effect.ipsetRestore n ips ∈ es ∧ env.restoreOk n = false)

/-- Source: `cleanup_existing_ipsets` never terminates from this kernel state under
these command outcomes: no amount of scan-loop iterations reaches the
`return True`. -/
def cleanupDiverges (ce : CleanupEnv) (k : Kernel) : Prop :=
  ∀ fuel, cleanup_existing_ipsets ce fuel k = none

/-- An environment in which every external command succeeds. -/
def envAllOk (r : Remote) : Env :=
  { remote := r, downloadOk := true, importOk := true, listOk := true,
    createOk := fun _ => true, flushOk := fun _ => true,
    restoreOk := fun _ => true, iptOk := fun _ _ => true,
    cleanup := { listOk := true, deleteOk := true, ipsetListOk := true,
                 destroyOk := fun _ => true } }

/-- A one-record database attributing one IPv4 prefix to `KR`. -/
def dbKR : Db := Db.good [(some "KR", "1.2.3.0/24")]

/-- A different one-record database still containing `KR`. -/
def dbKR2 : Db := Db.good [(some "KR", "9.9.9.0/24")]

/-- A kernel with one country set and empty chains. -/
def kernelKR : Kernel := { sets := ["country-KR"], chainV4 := [], chainV6 := [] }

/-- Steady state whose persisted metadata baseline is `m1`. -/
def sysC1 : Sys :=
  { fs := { lastCheck := some "m1", hashFile := some dbKR, mmdb := some dbKR },
    kernel := kernelKR }

/-- Steady state whose baselines match remote metadata `m` and content. -/
def sysSteady : Sys :=
  { fs := { lastCheck := some "m", hashFile := some dbKR, mmdb := some dbKR },
    kernel := kernelKR }

/-- The empty first-install state: no files, no sets, no rules. -/
def sysEmpty : Sys :=
  { fs := { lastCheck := none, hashFile := none, mmdb := none },
    kernel := { sets := [], chainV4 := [], chainV6 := [] } }

/-- First-install environment: the remote serves metadata `m` / content
`dbKR` and everything succeeds. -/
def envC9 : Env := envAllOk (Remote.avail "m" dbKR)

/-- Steady-state environment for the cleanup counterexample: the remote
changed to `m2` / `dbKR2`, which still contains `KR`. -/
def envC7 : Env := envAllOk (Remote.avail "m2" dbKR2)

/-- Cleanup command outcomes in which `iptables -D` silently fails while
the listing keeps succeeding. -/
def ceBad : CleanupEnv :=
  { listOk := true, deleteOk := false, ipsetListOk := true,
    destroyOk := fun _ => true }

/-- A kernel whose v4 INPUT chain holds one `geoip-firewall-drop` rule. -/
def kBad : Kernel := { sets := [], chainV4 := [Marker.geoipDrop], chainV6 := [] }

example : pyStartsWith "country-KR" "country-" = true := by decide
example : pyStartsWith "geoip-x" "country-" = false := by decide
example : pyContainsColon "fe80::/10" = true := by decide
example : pyContainsColon "10.0.0.0/8" = false := by decide
example :
    parse_mmdb_to_country_ipranges true
      (some (Db.good [(some "KR", "1.0.0.0/24"), (none, "2.0.0.0/24"),
        (some "US", "3.0.0.0/24"), (some "KR", "4.0.0.0/24")]))
      = [("KR", ["1.0.0.0/24", "4.0.0.0/24"]), ("US", ["3.0.0.0/24"])] := by decide

theorem isPrefixOf_append_self (l t : List Char) : l.isPrefixOf (l ++ t) = true := by
  rw [ List.isPrefixOf_iff_prefix]
  exact List.prefix_append l t

theorem pyStartsWith_append (p t : String) : pyStartsWith (p ++ t) p = true := by
  unfold pyStartsWith
  rw [String.data_append]
  exact isPrefixOf_append_self p.data t.data

theorem pyStartsWith_append2 (p t u : String) :
    pyStartsWith (p ++ t ++ u) p = true := by
  unfold pyStartsWith
  rw [String.data_append, String.data_append, List.append_assoc]
  exact isPrefixOf_append_self p.data (t.data ++ u.data)

/-- A steady-state run whose remote check reports "no change" terminates at
once, successfully, having only issued the HEAD request. -/
theorem steady_noChange (env : Env) (fuel : Nat) (s : Sys) (d : Db)
    (hcount : ¬countryCount env s.kernel = 0)
    (hmmdb : s.fs.mmdb = some d)
    (hrc : check_remote_file_changed env.remote s.fs
      = some (false, s.fs, [Effect.headRequest])) :
    smart_update env fuel s = some (true, s, [Effect.headRequest]) := by
  unfold smart_update
  rw [if_neg hcount, hmmdb, hrc]

/-- C1 (amended): the persisted fingerprint baselines are written at
detection time, not after the update cycle: `check_remote_file_changed`
leaves the baseline untouched when it reports "no change" but overwrites
`last-check.txt` with the new metadata at the very moment it detects a
difference (before any download), and `check_file_hash_changed` likewise
leaves the hash file untouched on "unchanged" but overwrites it at the very
moment it detects a difference (before any rebuild). -/
theorem C1_baseline_written_at_detection (remote : Remote) (fs : FS) (d : Db) :
    (∀ fs' es, check_remote_file_changed remote fs = some (false, fs', es) →
      fs' = fs) ∧
    (∀ meta c, remote = Remote.avail meta c → ¬fs.lastCheck = some meta →
      check_remote_file_changed remote fs
        = some (true, { fs with lastCheck := some meta },
            [Effect.headRequest, Effect.writeLastCheck meta])) ∧
    ((check_file_hash_changed fs d).1 = false →
      (check_file_hash_changed fs d).2.1 = fs) ∧
    ((check_file_hash_changed fs d).1 = true →
      (check_file_hash_changed fs d).2.1 = { fs with hashFile := some d } ∧
      Effect.writeHash d ∈ (check_file_hash_changed fs d).2.2) := by
  refine ⟨?_, ?_, ?_, ?_⟩
  · intro fs' es h
    cases remote with
    | checkError => simp [check_remote_file_changed] at h
    | notFound =>
        simp [check_remote_file_changed] at h
        exact h.1.symm
    | avail meta c =>
        by_cases hl : fs.lastCheck = some meta
        · simp [check_remote_file_changed, hl] at h
          exact h.1.symm
        · simp [check_remote_file_changed, hl] at h
  · intro meta c hr hl
    subst hr
    simp [check_remote_file_changed, hl]
  · intro h
    by_cases hh : fs.hashFile = some d
    · simp [check_file_hash_changed, hh]
    · simp [check_file_hash_changed, hh] at h
  · intro h
    by_cases hh : fs.hashFile = some d
    · simp [check_file_hash_changed, hh] at h
    · simp [check_file_hash_changed, hh]

/-- Witness for C1 (amended): on a concrete state whose saved metadata is
`m1`, a remote metadata of `m2` makes the check persist `m2` immediately. -/
theorem C1_baseline_written_at_detection_witness :
    check_remote_file_changed (Remote.avail "m2" Db.corrupt)
        { lastCheck := some "m1", hashFile := none, mmdb := none }
      = some (true, { lastCheck := some "m2", hashFile := none, mmdb := none },
          [Effect.headRequest, Effect.writeLastCheck "m2"]) :=
  (C1_baseline_written_at_detection (Remote.avail "m2" Db.corrupt)
      { lastCheck := some "m1", hashFile := none, mmdb := none } Db.corrupt).2.1
    "m2" Db.corrupt rfl (by decide)

/-- C1 counterexample: a steady-state run that detects a remote change,
downloads a corrupt database and therefore fails (returns `False` without
rebuilding anything) has nevertheless already overwritten both persisted
baselines, so the previously persisted baseline files are not left
unchanged by an unsuccessful run. -/
theorem C1_counterexample :
    runSucceeds (smart_update (envAllOk (Remote.avail "m2" Db.corrupt)) 8 sysC1)
      = false ∧
    (smart_update (envAllOk (Remote.avail "m2" Db.corrupt)) 8 sysC1).isSome
      = true ∧
    sysC1.fs.lastCheck = some "m1" ∧
    (sysAfter (smart_update (envAllOk (Remote.avail "m2" Db.corrupt)) 8 sysC1)
        sysC1).fs.lastCheck = some "m2" ∧
    sysC1.fs.hashFile = some dbKR ∧
    (sysAfter (smart_update (envAllOk (Remote.avail "m2" Db.corrupt)) 8 sysC1)
        sysC1).fs.hashFile = some Db.corrupt := by
  decide

/-- C3: in the steady state (a country set exists, the database file
exists) where the remote metadata equals the persisted fingerprint, the
run returns `True` immediately with an unchanged state, issuing only the
HEAD request: no download and zero kernel mutations. -/
theorem C3_steady_unchanged_no_mutation (env : Env) (fuel : Nat) (s : Sys)
    (d : Db) (meta : String) (c : Db)
    (hcount : ¬countryCount env s.kernel = 0)
    (hmmdb : s.fs.mmdb = some d)
    (hremote : env.remote = Remote.avail meta c)
    (hsaved : s.fs.lastCheck = some meta) :
    smart_update env fuel s = some (true, s, [Effect.headRequest]) ∧
    kernelMutationCount (smart_update env fuel s) = 0 ∧
    Effect.downloadDb ∉ effectsOf (smart_update env fuel s) := by
  have hrc : check_remote_file_changed env.remote s.fs
      = some (false, s.fs, [Effect.headRequest]) := by
    rw [hremote]
    simp [check_remote_file_changed, hsaved]
  have heq := steady_noChange env fuel s d hcount hmmdb hrc
  refine ⟨heq, ?_, ?_⟩
  · rw [heq]; rfl
  · rw [heq]; simp [effectsOf]

/-- Witness for C3 at a concrete steady state matching remote `m`. -/
theorem C3_steady_unchanged_no_mutation_witness :
    smart_update (envAllOk (Remote.avail "m" dbKR)) 8 sysSteady
      = some (true, sysSteady, [Effect.headRequest]) ∧
    kernelMutationCount (smart_update (envAllOk (Remote.avail "m" dbKR)) 8 sysSteady) = 0 ∧
    Effect.downloadDb ∉ effectsOf (smart_update (envAllOk (Remote.avail "m" dbKR)) 8 sysSteady) :=
  C3_steady_unchanged_no_mutation (envAllOk (Remote.avail "m" dbKR)) 8 sysSteady
    dbKR "m" dbKR (by decide) rfl rfl rfl

/-- C8: `parse_mmdb_to_country_ipranges` returns an empty map when the
parsing dependency is unavailable, the database file is missing, or it is
corrupt; and the orchestrator treats an empty map as a hard failure: the
rebuild phase stops before any address-set or rule-chain operation with an
empty effect trace and result `False` (shown both for the common rebuild
tail used by every branch, and for a whole `smart_update` run in the
recovery branch). -/
theorem C8_empty_map_hard_failure (importOk : Bool) (mmdb : Option Db)
    (env : Env) (fuel : Nat) (s : Sys) :
    (importOk = false ∨ mmdb = none ∨ mmdb = some Db.corrupt →
      parse_mmdb_to_country_ipranges importOk mmdb = []) ∧
    (parse_mmdb_to_country_ipranges env.importOk s.fs.mmdb = [] →
      rebuildPhase env fuel s = some (false, s, [])) ∧
    (countryCount env s.kernel = 0 → s.fs.mmdb.isSome = true →
      s.fs.hashFile.isSome = true →
      parse_mmdb_to_country_ipranges env.importOk s.fs.mmdb = [] →
      smart_update env fuel s = some (false, s, [])) := by
  have key : parse_mmdb_to_country_ipranges env.importOk s.fs.mmdb = [] →
      rebuildPhase env fuel s = some (false, s, []) := by
    intro hp
    unfold rebuildPhase
    rw [hp]
    rfl
  refine ⟨?_, key, ?_⟩
  · rintro (h | h | h)
    · simp [parse_mmdb_to_country_ipranges, h]
    · simp [parse_mmdb_to_country_ipranges, h]
    · simp [parse_mmdb_to_country_ipranges, h]
  · intro h0 hm hh hp
    obtain ⟨d, hd⟩ := Option.isSome_iff_exists.mp hm
    have hnone : s.fs.hashFile.isNone = false := by
      rcases hfo : s.fs.hashFile with _ | x
      · rw [hfo] at hh; simp at hh
      · simp [hfo]
    unfold smart_update
    rw [if_pos h0, hd, hnone]
    simp only [Bool.false_eq_true, if_false]
    exact key hp

/-- Witness for C8: a corrupt database file in the recovery branch makes
the whole run fail with an empty effect trace. -/
theorem C8_empty_map_hard_failure_witness :
    smart_update (envAllOk Remote.notFound) 4
        { fs := { lastCheck := none, hashFile := some dbKR, mmdb := some Db.corrupt },
          kernel := { sets := [], chainV4 := [], chainV6 := [] } }
      = some (false,
          { fs := { lastCheck := none, hashFile := some dbKR, mmdb := some Db.corrupt },
            kernel := { sets := [], chainV4 := [], chainV6 := [] } }, []) :=
  (C8_empty_map_hard_failure true (some Db.corrupt) (envAllOk Remote.notFound) 4
      { fs := { lastCheck := none, hashFile := some dbKR, mmdb := some Db.corrupt },
        kernel := { sets := [], chainV4 := [], chainV6 := [] } }).2.2
    (by decide) rfl rfl rfl

theorem dropLoop_none_of_not_delete (p : Marker → Bool) (fam : Family)
    (chain : List Marker) (h : chain.any p = true) :
    ∀ fuel, dropLoop false p fam fuel chain = none := by
  intro fuel
  induction fuel with
  | zero => rfl
  | succ n ih =>
      unfold dropLoop
      rw [if_pos h]
      simp only [Bool.false_eq_true, if_false, ih]

theorem removeFirst_length (p : Marker → Bool) :
    ∀ chain : List Marker, chain.any p = true →
      (removeFirst p chain).length + 1 = chain.length := by
  intro chain h
  induction chain with
  | nil => simp at h
  | cons m rest ih =>
      by_cases hm : p m
      · simp [removeFirst, hm]
      · simp only [List.any_cons, hm, Bool.false_or] at h
        simp [removeFirst, hm, ih h]

theorem dropLoop_some_of_delete (p : Marker → Bool) (fam : Family) :
    ∀ fuel chain, chain.length < fuel →
      (dropLoop true p fam fuel chain).isSome = true := by
  intro fuel
  induction fuel with
  | zero => intro chain h; omega
  | succ n ih =>
      intro chain h
      unfold dropLoop
      by_cases ha : chain.any p = true
      · rw [if_pos ha]
        have hlen : (removeFirst p chain).length < n := by
          have := removeFirst_length p chain ha
          omega
        have hs := ih (removeFirst p chain) hlen
        rcases hdl : dropLoop true p fam n (removeFirst p chain) with _ | ⟨c, es⟩
        · rw [hdl] at hs; simp at hs
        · simp only [if_true]
          rw [hdl]
          rfl
      · rw [if_neg ha]
        rfl

theorem dropLoop_length_le (p : Marker → Bool) (fam : Family) :
    ∀ fuel chain c es, dropLoop true p fam fuel chain = some (c, es) →
      c.length ≤ chain.length := by
  intro fuel
  induction fuel with
  | zero => intro chain c es h; simp [dropLoop] at h
  | succ n ih =>
      intro chain c es h
      unfold dropLoop at h
      by_cases ha : chain.any p = true
      · rw [if_pos ha] at h
        simp only [if_true] at h
        rcases hdl : dropLoop true p fam n (removeFirst p chain) with _ | ⟨c', es'⟩
        · rw [hdl] at h; simp at h
        · rw [hdl] at h
          simp only [Option.some.injEq, Prod.mk.injEq] at h
          obtain ⟨h1, h2⟩ := h
          have hle := ih (removeFirst p chain) c' es' hdl
          have hr := removeFirst_length p chain ha
          subst h1
          omega
      · rw [if_neg ha] at h
        simp only [Option.some.injEq, Prod.mk.injEq] at h
        obtain ⟨h1, h2⟩ := h
        subst h1
        exact Nat.le_refl _

theorem cleanupChain_isSome (ce : CleanupEnv) (fam : Family) (fuel : Nat)
    (chain : List Marker) (hd : ce.deleteOk = true) (hf : chain.length < fuel) :
    (cleanupChain ce fam fuel chain).isSome = true := by
  unfold cleanupChain
  by_cases hl : ce.listOk = true
  · rw [if_pos hl, hd]
    have h1 := dropLoop_some_of_delete lineMatchesDrop fam fuel chain hf
    rcases hdl : dropLoop true lineMatchesDrop fam fuel chain with _ | ⟨c1, es1⟩
    · rw [hdl] at h1; simp at h1
    · dsimp only
      have hle := dropLoop_length_le lineMatchesDrop fam fuel chain c1 es1 hdl
      have h2 := dropLoop_some_of_delete lineMatchesGeoip fam fuel c1 (by omega)
      rcases hdl2 : dropLoop true lineMatchesGeoip fam fuel c1 with _ | ⟨c2, es2⟩
      · rw [hdl2] at h2; simp at h2
      · rfl
  · rw [if_neg hl]
    rfl

/-- C10 (amended): `cleanup_existing_ipsets` never raises and, whenever it
terminates, returns `True` no matter which listing or destroy commands
failed; and it does terminate whenever every rule deletion it issues
actually removes the listed rule.  (Its scan-delete loops, however, need
not terminate when a deletion fails persistently — see the
counterexample.) -/
theorem C10_cleanup_swallows_errors (ce : CleanupEnv) (fuel : Nat) (k : Kernel) :
    (∀ b k' es, cleanup_existing_ipsets ce fuel k = some (b, k', es) →
      b = true) ∧
    (ce.deleteOk = true → k.chainV4.length < fuel → k.chainV6.length < fuel →
      (cleanup_existing_ipsets ce fuel k).isSome = true) := by
  constructor
  · intro b k' es h
    unfold cleanup_existing_ipsets at h
    rcases h4 : cleanupChain ce Family.v4 fuel k.chainV4 with _ | ⟨c4, e4⟩
    · rw [h4] at h; simp at h
    · rw [h4] at h
      rcases h6 : cleanupChain ce Family.v6 fuel k.chainV6 with _ | ⟨c6, e6⟩
      · rw [h6] at h; simp at h
      · rw [h6] at h
        simp only [Option.some.injEq, Prod.mk.injEq] at h
        exact h.1.symm
  · intro hd h4 h6
    unfold cleanup_existing_ipsets
    have s4 := cleanupChain_isSome ce Family.v4 fuel k.chainV4 hd h4
    rcases hc4 : cleanupChain ce Family.v4 fuel k.chainV4 with _ | ⟨c4, e4⟩
    · rw [hc4] at s4; simp at s4
    · dsimp only
      have s6 := cleanupChain_isSome ce Family.v6 fuel k.chainV6 hd h6
      rcases hc6 : cleanupChain ce Family.v6 fuel k.chainV6 with _ | ⟨c6, e6⟩
      · rw [hc6] at s6; simp at s6
      · rfl

/-- Witness for C10 (amended): with working deletions, cleanup of a chain
holding one tagged drop rule terminates (and, by the first conjunct,
returns `True`). -/
theorem C10_cleanup_swallows_errors_witness :
    (cleanup_existing_ipsets
        { listOk := true, deleteOk := true, ipsetListOk := true,
          destroyOk := fun _ => true } 3 kBad).isSome = true :=
  (C10_cleanup_swallows_errors
      { listOk := true, deleteOk := true, ipsetListOk := true,
        destroyOk := fun _ => true } 3 kBad).2 rfl (by decide) (by decide)

/-- C10 counterexample: when an issued `iptables -D` fails silently while
the listing still shows the tagged rule, the first scan-delete loop finds
the same rule forever: from this concrete state `cleanup_existing_ipsets`
never returns at all (so it does not "always return true regardless of how
many individual rule deletions fail"). -/
theorem C10_counterexample : cleanupDiverges ceBad kBad := by
  intro fuel
  have h := dropLoop_none_of_not_delete lineMatchesDrop Family.v4
      [Marker.geoipDrop] (by decide) fuel
  show cleanup_existing_ipsets ceBad fuel kBad = none
  unfold cleanup_existing_ipsets cleanupChain
  simp [ceBad, kBad, h]

theorem dropLoop_effects_shape (dOk : Bool) (p : Marker → Bool) (fam : Family) :
    ∀ fuel chain c es, dropLoop dOk p fam fuel chain = some (c, es) →
      ∀ e ∈ es, e = Effect.iptablesDelete fam := by
  intro fuel
  induction fuel with
  | zero => intro chain c es h; simp [dropLoop] at h
  | succ n ih =>
      intro chain c es h
      unfold dropLoop at h
      by_cases ha : chain.any p = true
      · rw [if_pos ha] at h
        dsimp only at h
        generalize hch : (if dOk = true then removeFirst p chain else chain) = ch at h
        rcases hdl : dropLoop dOk p fam n ch with _ | ⟨c', es'⟩
        · rw [hdl] at h; simp at h
        · rw [hdl] at h
          simp only [Option.some.injEq, Prod.mk.injEq] at h
          obtain ⟨h1, h2⟩ := h
          subst h2
          intro e he
          rcases List.mem_cons.mp he with he | he
          · exact he
          · exact ih ch c' es' hdl e he
      · rw [if_neg ha] at h
        simp only [Option.some.injEq, Prod.mk.injEq] at h
        obtain ⟨h1, h2⟩ := h
        subst h2
        intro e he
        simp at he

theorem cleanupChain_effects_shape (ce : CleanupEnv) (fam : Family) (fuel : Nat)
    (chain c : List Marker) (es : List Effect)
    (h : cleanupChain ce fam fuel chain = some (c, es)) :
    ∀ e ∈ es, e = Effect.iptablesDelete fam := by
  unfold cleanupChain at h
  by_cases hl : ce.listOk = true
  · rw [if_pos hl] at h
    rcases h1 : dropLoop ce.deleteOk lineMatchesDrop fam fuel chain with _ | ⟨c1, e1⟩
    · rw [h1] at h; simp at h
    · rw [h1] at h
      dsimp only at h
      rcases h2 : dropLoop ce.deleteOk lineMatchesGeoip fam fuel c1 with _ | ⟨c2, e2⟩
      · rw [h2] at h; simp at h
      · rw [h2] at h
        simp only [Option.some.injEq, Prod.mk.injEq] at h
        obtain ⟨hc, he⟩ := h
        subst he
        intro e he
        rcases List.mem_append.mp he with he | he
        · exact dropLoop_effects_shape ce.deleteOk lineMatchesDrop fam fuel
            chain c1 e1 h1 e he
        · exact dropLoop_effects_shape ce.deleteOk lineMatchesGeoip fam fuel
            c1 c2 e2 h2 e he
  · rw [if_neg hl] at h
    simp only [Option.some.injEq, Prod.mk.injEq] at h
    obtain ⟨hc, he⟩ := h
    subst he
    intro e he
    simp at he

theorem destroyedNames_append (a b : List Effect) :
    destroyedNames (a ++ b) = destroyedNames a ++ destroyedNames b :=
  List.filterMap_append a b _

theorem destroyedNames_of_deletes (es : List Effect)
    (h : ∀ e ∈ es, ∃ f, e = Effect.iptablesDelete f) :
    destroyedNames es = [] := by
  induction es with
  | nil => rfl
  | cons e rest ih =>
      obtain ⟨f, hf⟩ := h e (List.mem_cons_self e rest)
      subst hf
      simp only [destroyedNames, List.filterMap_cons]
      exact ih (fun e he => h e (List.mem_cons_of_mem _ he))

theorem destroyedNames_map_destroy (l : List String) :
    destroyedNames (l.map Effect.ipsetDestroy) = l := by
  induction l with
  | nil => rfl
  | cons a as ih =>
      simp only [List.map_cons, destroyedNames, List.filterMap_cons]
      exact congrArg (fun l => a :: l) ih

/-- C7 (amended): the cleanup step destroys exactly the kernel sets whose
names match the naming convention (`country-*` or `geoip-*`) — every one
of them, whether or not it is about to be repopulated in the current run
(the subsequent apply step recreates the repopulated ones); when the
`ipset list -n` listing fails, it destroys none. -/
theorem C7_cleanup_destroys_all_matching (ce : CleanupEnv) (fuel : Nat)
    (k : Kernel) (b : Bool) (k' : Kernel) (es : List Effect)
    (h : cleanup_existing_ipsets ce fuel k = some (b, k', es)) :
    destroyedNames es
      = (if ce.ipsetListOk then k.sets.filter isGeoipSetName else []) := by
  unfold cleanup_existing_ipsets at h
  rcases h4 : cleanupChain ce Family.v4 fuel k.chainV4 with _ | ⟨c4, e4⟩
  · rw [h4] at h; simp at h
  · rw [h4] at h
    rcases h6 : cleanupChain ce Family.v6 fuel k.chainV6 with _ | ⟨c6, e6⟩
    · rw [h6] at h; simp at h
    · rw [h6] at h
      simp only [Option.some.injEq, Prod.mk.injEq] at h
      obtain ⟨hb, hk, he⟩ := h
      subst he
      rw [destroyedNames_append, destroyedNames_append]
      rw [destroyedNames_of_deletes e4
        (fun e he => ⟨Family.v4, cleanupChain_effects_shape ce Family.v4 fuel
          k.chainV4 c4 e4 h4 e he⟩)]
      rw [destroyedNames_of_deletes e6
        (fun e he => ⟨Family.v6, cleanupChain_effects_shape ce Family.v6 fuel
          k.chainV6 c6 e6 h6 e he⟩)]
      rw [destroyedNames_map_destroy]
      simp

/-- Witness for C7 (amended): cleanup of an inventory holding a matching
and a foreign set destroys exactly the matching one. -/
theorem C7_cleanup_destroys_all_matching_witness :
    destroyedNames [Effect.ipsetDestroy "country-KR"]
      = (if ({ listOk := true, deleteOk := true, ipsetListOk := true,
               destroyOk := fun _ => true } : CleanupEnv).ipsetListOk then
          (["country-KR", "other"].filter isGeoipSetName)
         else []) :=
  C7_cleanup_destroys_all_matching
    { listOk := true, deleteOk := true, ipsetListOk := true,
      destroyOk := fun _ => true } 1
    { sets := ["country-KR", "other"], chainV4 := [], chainV6 := [] }
    true { sets := ["other"], chainV4 := [], chainV6 := [] }
    [Effect.ipsetDestroy "country-KR"] (by decide)

/-- C7 counterexample: a successful steady-state update whose new database
still contains `KR` — so the set `country-KR` is about to be repopulated
(and indeed is recreated later in the trace) — nevertheless destroys
`country-KR` during cleanup, contradicting the claim that sets about to be
repopulated are not destroyed. -/
theorem C7_counterexample :
    runSucceeds (smart_update envC7 12 sysC1) = true ∧
    ("KR", ["9.9.9.0/24"])
        ∈ parse_mmdb_to_country_ipranges envC7.importOk (some dbKR2) ∧
    Effect.ipsetDestroy "country-KR" ∈ effectsOf (smart_update envC7 12 sysC1) ∧
    Effect.ipsetCreate "country-KR" ∈ effectsOf (smart_update envC7 12 sysC1) := by
  decide

theorem applySet_restore_shape (env : Env) (nm : String) (ips0 : List String)
    (k : Kernel) (n : String) (ips : List String)
    (hmem : Effect.ipsetRestore n ips ∈ (applySet env nm ips0 k).2.2) :
    n = nm ∧ ips = ips0 := by
  unfold applySet at hmem
  by_cases hc : env.createOk nm = true
  · rw [if_pos hc] at hmem
    dsimp only at hmem
    by_cases hf : env.flushOk nm = true
    · rw [if_pos hf] at hmem
      by_cases hr : env.restoreOk nm = true
      · rw [if_pos hr] at hmem
        simp at hmem
        exact hmem
      · rw [if_neg hr] at hmem
        simp at hmem
        exact hmem
    · rw [if_neg hf] at hmem
      simp at hmem
  · rw [if_neg hc] at hmem
    simp at hmem

theorem applyCountry_restore_shape (env : Env) (cc : String) (rs : List String)
    (k : Kernel) (n : String) (ips : List String)
    (hmem : Effect.ipsetRestore n ips ∈ (applyCountry env cc rs k).2.2) :
    (n = setNameV4 cc ∧ ips = rs.filter (fun s => !pyContainsColon s)) ∨
    (n = setNameV6 cc ∧ ips = rs.filter pyContainsColon) := by
  unfold applyCountry at hmem
  dsimp only at hmem
  by_cases h4 : (rs.filter (fun s => !pyContainsColon s)).isEmpty = true
  · rw [if_pos h4] at hmem
    by_cases h6 : (rs.filter pyContainsColon).isEmpty = true
    · rw [if_pos h6] at hmem
      simp at hmem
    · rw [if_neg h6] at hmem
      exact Or.inr (applySet_restore_shape env (setNameV6 cc) _ k n ips hmem)
  · rw [if_neg h4] at hmem
    rcases hs : applySet env (setNameV4 cc) (rs.filter (fun s => !pyContainsColon s)) k
      with ⟨b1, k1, es1⟩
    rw [hs] at hmem
    cases b1 with
    | false =>
        dsimp only at hmem
        have h' : Effect.ipsetRestore n ips
            ∈ (applySet env (setNameV4 cc) (rs.filter (fun s => !pyContainsColon s)) k).2.2 := by
          rw [hs]
          exact hmem
        exact Or.inl (applySet_restore_shape env (setNameV4 cc) _ k n ips h')
    | true =>
        dsimp only at hmem
        by_cases h6 : (rs.filter pyContainsColon).isEmpty = true
        · rw [if_pos h6] at hmem
          have h' : Effect.ipsetRestore n ips
              ∈ (applySet env (setNameV4 cc) (rs.filter (fun s => !pyContainsColon s)) k).2.2 := by
            rw [hs]
            exact hmem
          exact Or.inl (applySet_restore_shape env (setNameV4 cc) _ k n ips h')
        · rw [if_neg h6] at hmem
          rcases hs6 : applySet env (setNameV6 cc) (rs.filter pyContainsColon) k1
            with ⟨b2, k2, es2⟩
          rw [hs6] at hmem
          dsimp only at hmem
          rcases List.mem_append.mp hmem with hm | hm
          · have h' : Effect.ipsetRestore n ips
                ∈ (applySet env (setNameV4 cc) (rs.filter (fun s => !pyContainsColon s)) k).2.2 := by
              rw [hs]
              exact hm
            exact Or.inl (applySet_restore_shape env (setNameV4 cc) _ k n ips h')
          · have h' : Effect.ipsetRestore n ips
                ∈ (applySet env (setNameV6 cc) (rs.filter pyContainsColon) k1).2.2 := by
              rw [hs6]
              exact hm
            exact Or.inr (applySet_restore_shape env (setNameV6 cc) _ k1 n ips h')

theorem applyLoop_restore_shape (env : Env) :
    ∀ (m : List (String × List String)) (k : Kernel) (n : String)
      (ips : List String),
      Effect.ipsetRestore n ips ∈ (applyLoop env m k).2.2 →
      ∃ cc rs, (cc, rs) ∈ m ∧
        ((n = setNameV4 cc ∧ ips = rs.filter (fun s => !pyContainsColon s)) ∨
         (n = setNameV6 cc ∧ ips = rs.filter pyContainsColon)) := by
  intro m
  induction m with
  | nil => intro k n ips h; simp [applyLoop] at h
  | cons p rest ih =>
      intro k n ips h
      obtain ⟨cc, rs⟩ := p
      unfold applyLoop at h
      rcases hac : applyCountry env cc rs k with ⟨b1, k1, es1⟩
      rw [hac] at h
      cases b1 with
      | false =>
          dsimp only at h
          have h' : Effect.ipsetRestore n ips ∈ (applyCountry env cc rs k).2.2 := by
            rw [hac]
            exact h
          exact ⟨cc, rs, List.mem_cons_self _ _,
            applyCountry_restore_shape env cc rs k n ips h'⟩
      | true =>
          dsimp only at h
          rcases hal : applyLoop env rest k1 with ⟨b2, k2, es2⟩
          rw [hal] at h
          dsimp only at h
          rcases List.mem_append.mp h with hm | hm
          · have h' : Effect.ipsetRestore n ips ∈ (applyCountry env cc rs k).2.2 := by
              rw [hac]
              exact hm
            exact ⟨cc, rs, List.mem_cons_self _ _,
              applyCountry_restore_shape env cc rs k n ips h'⟩
          · have h' : Effect.ipsetRestore n ips ∈ (applyLoop env rest k1).2.2 := by
              rw [hal]
              exact hm
            obtain ⟨cc', rs', hmem', hsh⟩ := ih k1 n ips h'
            exact ⟨cc', rs', List.mem_cons_of_mem _ hmem', hsh⟩

/-- C5: every bulk-add batch `apply_native_ipset` issues belongs to some
country of the map and is exactly one side of that country's
colon-partition: the IPv4 set (named `country-CC`) receives exactly the
colon-free prefixes and the IPv6 set (named `country-CC-v6`) exactly the
colon-containing ones, so no IPv6 literal reaches an IPv4 set and vice
versa. -/
theorem C5_family_partition (env : Env) (m : List (String × List String))
    (k : Kernel) (n : String) (ips : List String)
    (hmem : Effect.ipsetRestore n ips ∈ (apply_native_ipset env m k).2.2) :
    ∃ cc rs, (cc, rs) ∈ m ∧
      ((n = setNameV4 cc ∧ ips = rs.filter (fun s => !pyContainsColon s) ∧
          ∀ ip ∈ ips, pyContainsColon ip = false) ∨
       (n = setNameV6 cc ∧ ips = rs.filter pyContainsColon ∧
          ∀ ip ∈ ips, pyContainsColon ip = true)) := by
  obtain ⟨cc, rs, hm, hsh⟩ := applyLoop_restore_shape env m k n ips hmem
  refine ⟨cc, rs, hm, ?_⟩
  rcases hsh with ⟨h1, h2⟩ | ⟨h1, h2⟩
  · refine Or.inl ⟨h1, h2, ?_⟩
    intro ip hip
    rw [h2] at hip
    have := (List.mem_filter.mp hip).2
    simpa using this
  · refine Or.inr ⟨h1, h2, ?_⟩
    intro ip hip
    rw [h2] at hip
    exact (List.mem_filter.mp hip).2

/-- Witness for C5: a country with one IPv4 and one IPv6 prefix produces a
v4 batch holding exactly the colon-free prefix. -/
theorem C5_family_partition_witness :
    ∃ cc rs, (cc, rs) ∈ [("KR", ["1.2.3.0/24", "fe80::/10"])] ∧
      (("country-KR" = setNameV4 cc ∧
          ["1.2.3.0/24"] = rs.filter (fun s => !pyContainsColon s) ∧
          ∀ ip ∈ ["1.2.3.0/24"], pyContainsColon ip = false) ∨
       ("country-KR" = setNameV6 cc ∧
          ["1.2.3.0/24"] = rs.filter pyContainsColon ∧
          ∀ ip ∈ ["1.2.3.0/24"], pyContainsColon ip = true)) :=
  C5_family_partition (envAllOk Remote.notFound)
    [("KR", ["1.2.3.0/24", "fe80::/10"])]
    { sets := [], chainV4 := [], chainV6 := [] }
    "country-KR" ["1.2.3.0/24"] (by decide)

theorem applySet_effects_write (env : Env) (nm : String) (ips0 : List String)
    (k : Kernel) : ∀ e ∈ (applySet env nm ips0 k).2.2, e.isIpsetWrite = true := by
  intro e he
  unfold applySet at he
  by_cases hc : env.createOk nm = true
  · rw [if_pos hc] at he
    dsimp only at he
    by_cases hf : env.flushOk nm = true
    · rw [if_pos hf] at he
      by_cases hr : env.restoreOk nm = true
      · rw [if_pos hr] at he
        simp at he
        rcases he with rfl | rfl | rfl <;> rfl
      · rw [if_neg hr] at he
        simp at he
        rcases he with rfl | rfl | rfl <;> rfl
    · rw [if_neg hf] at he
      simp at he
      rcases he with rfl | rfl <;> rfl
  · rw [if_neg hc] at he
    simp at he
    subst he
    rfl

theorem applyCountry_effects_write (env : Env) (cc : String) (rs : List String)
    (k : Kernel) :
    ∀ e ∈ (applyCountry env cc rs k).2.2, e.isIpsetWrite = true := by
  intro e he
  unfold applyCountry at he
  dsimp only at he
  by_cases h4 : (rs.filter (fun s => !pyContainsColon s)).isEmpty = true
  · rw [if_pos h4] at he
    by_cases h6 : (rs.filter pyContainsColon).isEmpty = true
    · rw [if_pos h6] at he
      simp at he
    · rw [if_neg h6] at he
      exact applySet_effects_write env (setNameV6 cc) _ k e he
  · rw [if_neg h4] at he
    rcases hs : applySet env (setNameV4 cc) (rs.filter (fun s => !pyContainsColon s)) k
      with ⟨b1, k1, es1⟩
    rw [hs] at he
    have hes1 : ∀ e ∈ es1, e.isIpsetWrite = true := by
      intro e he1
      refine applySet_effects_write env (setNameV4 cc)
        (rs.filter (fun s => !pyContainsColon s)) k e ?_
      rw [hs]
      exact he1
    cases b1 with
    | false =>
        dsimp only at he
        exact hes1 e he
    | true =>
        dsimp only at he
        by_cases h6 : (rs.filter pyContainsColon).isEmpty = true
        · rw [if_pos h6] at he
          exact hes1 e he
        · rw [if_neg h6] at he
          rcases hs6 : applySet env (setNameV6 cc) (rs.filter pyContainsColon) k1
            with ⟨b2, k2, es2⟩
          rw [hs6] at he
          dsimp only at he
          rcases List.mem_append.mp he with hm | hm
          · exact hes1 e hm
          · refine applySet_effects_write env (setNameV6 cc)
              (rs.filter pyContainsColon) k1 e ?_
            rw [hs6]
            exact hm

theorem applyLoop_effects_write (env : Env) :
    ∀ (m : List (String × List String)) (k : Kernel),
      ∀ e ∈ (applyLoop env m k).2.2, e.isIpsetWrite = true := by
  intro m
  induction m with
  | nil => intro k e he; simp [applyLoop] at he
  | cons p rest ih =>
      intro k e he
      obtain ⟨cc, rs⟩ := p
      unfold applyLoop at he
      rcases hac : applyCountry env cc rs k with ⟨b1, k1, es1⟩
      rw [hac] at he
      have hes1 : ∀ e ∈ es1, e.isIpsetWrite = true := by
        intro e he1
        refine applyCountry_effects_write env cc rs k e ?_
        rw [hac]
        exact he1
      cases b1 with
      | false =>
          dsimp only at he
          exact hes1 e he
      | true =>
          dsimp only at he
          rcases hal : applyLoop env rest k1 with ⟨b2, k2, es2⟩
          rw [hal] at he
          dsimp only at he
          rcases List.mem_append.mp he with hm | hm
          · exact hes1 e hm
          · refine ih k1 e ?_
            rw [hal]
            exact hm

theorem stepFailure_append (env : Env) (a b : List Effect)
    (h : stepFailure env (a ++ b)) : stepFailure env a ∨ stepFailure env b := by
  rcases h with ⟨x, hx, hf⟩ | ⟨x, hx, hf⟩ | ⟨x, y, hx, hf⟩
  · rcases List.mem_append.mp hx with hm | hm
    · exact Or.inl (Or.inl ⟨x, hm, hf⟩)
    · exact Or.inr (Or.inl ⟨x, hm, hf⟩)
  · rcases List.mem_append.mp hx with hm | hm
    · exact Or.inl (Or.inr (Or.inl ⟨x, hm, hf⟩))
    · exact Or.inr (Or.inr (Or.inl ⟨x, hm, hf⟩))
  · rcases List.mem_append.mp hx with hm | hm
    · exact Or.inl (Or.inr (Or.inr ⟨x, y, hm, hf⟩))
    · exact Or.inr (Or.inr (Or.inr ⟨x, y, hm, hf⟩))

theorem applySet_stepFailure (env : Env) (nm : String) (ips0 : List String)
    (k : Kernel) (h : stepFailure env (applySet env nm ips0 k).2.2) :
    (applySet env nm ips0 k).1 = false := by
  unfold applySet at h ⊢
  by_cases hc : env.createOk nm = true
  · rw [if_pos hc] at h ⊢
    dsimp only at h ⊢
    by_cases hf : env.flushOk nm = true
    · rw [if_pos hf] at h ⊢
      by_cases hr : env.restoreOk nm = true
      · rw [if_pos hr] at h ⊢
        exfalso
        rcases h with ⟨x, hx, hfx⟩ | ⟨x, hx, hfx⟩ | ⟨x, y, hx, hfx⟩
        · simp at hx
          subst hx
          rw [hc] at hfx
          exact Bool.true_eq_false.mp hfx
        · simp at hx
          subst hx
          rw [hf] at hfx
          exact Bool.true_eq_false.mp hfx
        · simp at hx
          rw [hx.1] at hfx
          rw [hr] at hfx
          exact Bool.true_eq_false.mp hfx
      · rw [if_neg hr]
    · rw [if_neg hf]
  · rw [if_neg hc]

theorem applyCountry_stepFailure (env : Env) (cc : String) (rs : List String)
    (k : Kernel) (h : stepFailure env (applyCountry env cc rs k).2.2) :
    (applyCountry env cc rs k).1 = false := by
  unfold applyCountry at h ⊢
  dsimp only at h ⊢
  by_cases h4 : (rs.filter (fun s => !pyContainsColon s)).isEmpty = true
  · rw [if_pos h4] at h ⊢
    by_cases h6 : (rs.filter pyContainsColon).isEmpty = true
    · rw [if_pos h6] at h ⊢
      exfalso
      rcases h with ⟨x, hx, _⟩ | ⟨x, hx, _⟩ | ⟨x, y, hx, _⟩ <;> simp at hx
    · rw [if_neg h6] at h ⊢
      exact applySet_stepFailure env (setNameV6 cc) _ k h
  · rw [if_neg h4] at h ⊢
    rcases hs : applySet env (setNameV4 cc) (rs.filter (fun s => !pyContainsColon s)) k
      with ⟨b1, k1, es1⟩
    try rw [hs] at h
    try rw [hs]
    have hsf1 : stepFailure env es1 → b1 = false := by
      intro h1
      have := applySet_stepFailure env (setNameV4 cc)
        (rs.filter (fun s => !pyContainsColon s)) k (by rw [hs]; exact h1)
      rw [hs] at this
      exact this
    cases b1 with
    | false => dsimp only
    | true =>
        dsimp only at h ⊢
        by_cases h6 : (rs.filter pyContainsColon).isEmpty = true
        · rw [if_pos h6] at h ⊢
          exact absurd (hsf1 h) (by simp)
        · rw [if_neg h6] at h ⊢
          rcases hs6 : applySet env (setNameV6 cc) (rs.filter pyContainsColon) k1
            with ⟨b2, k2, es2⟩
          try rw [hs6] at h
          try rw [hs6]
          dsimp only at h ⊢
          rcases stepFailure_append env es1 es2 h with hsf | hsf
          · exact absurd (hsf1 hsf) (by simp)
          · have h2 := applySet_stepFailure env (setNameV6 cc)
              (rs.filter pyContainsColon) k1 (by rw [hs6]; exact hsf)
            rw [hs6] at h2
            exact h2

theorem applyLoop_stepFailure (env : Env) :
    ∀ (m : List (String × List String)) (k : Kernel),
      stepFailure env (applyLoop env m k).2.2 → (applyLoop env m k).1 = false := by
  intro m
  induction m with
  | nil =>
      intro k h
      exfalso
      rcases h with ⟨x, hx, _⟩ | ⟨x, hx, _⟩ | ⟨x, y, hx, _⟩ <;>
        simp [applyLoop] at hx
  | cons p rest ih =>
      intro k h
      obtain ⟨cc, rs⟩ := p
      unfold applyLoop at h ⊢
      rcases hac : applyCountry env cc rs k with ⟨b1, k1, es1⟩
      try rw [hac] at h
      try rw [hac]
      have hsf1 : stepFailure env es1 → b1 = false := by
        intro h1
        have h2 := applyCountry_stepFailure env cc rs k (by rw [hac]; exact h1)
        rw [hac] at h2
        exact h2
      cases b1 with
      | false => dsimp only
      | true =>
          dsimp only at h ⊢
          rcases hal : applyLoop env rest k1 with ⟨b2, k2, es2⟩
          try rw [hal] at h
          try rw [hal]
          dsimp only at h ⊢
          rcases stepFailure_append env es1 es2 h with hsf | hsf
          · exact absurd (hsf1 hsf) (by simp)
          · have h2 := ih k1 (by rw [hal]; exact hsf)
            rw [hal] at h2
            exact h2

theorem cleanup_effects_shape (ce : CleanupEnv) (fuel : Nat) (k : Kernel)
    (b : Bool) (k' : Kernel) (es : List Effect)
    (h : cleanup_existing_ipsets ce fuel k = some (b, k', es)) :
    ∀ e ∈ es, (∃ f, e = Effect.iptablesDelete f) ∨
      ∃ n, e = Effect.ipsetDestroy n := by
  unfold cleanup_existing_ipsets at h
  rcases h4 : cleanupChain ce Family.v4 fuel k.chainV4 with _ | ⟨c4, e4⟩
  · rw [h4] at h; simp at h
  · rw [h4] at h
    dsimp only at h
    rcases h6 : cleanupChain ce Family.v6 fuel k.chainV6 with _ | ⟨c6, e6⟩
    · rw [h6] at h; simp at h
    · rw [h6] at h
      simp only [Option.some.injEq, Prod.mk.injEq] at h
      obtain ⟨hb, hk, he⟩ := h
      subst he
      intro e he
      rcases List.mem_append.mp he with he | he
      · rcases List.mem_append.mp he with he | he
        · exact Or.inl ⟨Family.v4, cleanupChain_effects_shape ce Family.v4 fuel
            k.chainV4 c4 e4 h4 e he⟩
        · exact Or.inl ⟨Family.v6, cleanupChain_effects_shape ce Family.v6 fuel
            k.chainV6 c6 e6 h6 e he⟩
      · obtain ⟨n, hn, rfl⟩ := List.mem_map.mp he
        exact Or.inr ⟨n, rfl⟩

/-- C6: a failing create/flush/bulk-populate step makes `apply_native_ipset`
report failure (third conjunct), and a failed apply makes the whole rebuild
phase fail with an effect trace consisting of the cleanup and apply effects
only — `setup_firewall_rules` is never invoked, so the trace holds no
rule-append whatsoever. -/
theorem C6_apply_failure_blocks_rules (env : Env) (fuel : Nat) (s : Sys)
    (k1 k2 : Kernel) (ce ae : List Effect)
    (hne : (parse_mmdb_to_country_ipranges env.importOk s.fs.mmdb).isEmpty = false)
    (hclean : cleanup_existing_ipsets env.cleanup fuel s.kernel
      = some (true, k1, ce))
    (happly : apply_native_ipset env
        (parse_mmdb_to_country_ipranges env.importOk s.fs.mmdb) k1
      = (false, k2, ae)) :
    rebuildPhase env fuel s = some (false, { s with kernel := k2 }, ce ++ ae) ∧
    (∀ f r, Effect.iptablesAppend f r ∉ ce ++ ae) ∧
    (∀ (m : List (String × List String)) (k : Kernel),
      stepFailure env (apply_native_ipset env m k).2.2 →
      (apply_native_ipset env m k).1 = false) := by
  refine ⟨?_, ?_, ?_⟩
  · unfold rebuildPhase
    dsimp only
    rw [hne]
    simp only [Bool.false_eq_true, if_false]
    rw [hclean]
    dsimp only
    rw [happly]
  · intro f r hm
    rcases List.mem_append.mp hm with hm | hm
    · rcases cleanup_effects_shape env.cleanup fuel s.kernel true k1 ce hclean
        (Effect.iptablesAppend f r) hm with ⟨f', he⟩ | ⟨n', he⟩ <;> simp at he
    · have h' : Effect.iptablesAppend f r ∈ (apply_native_ipset env
          (parse_mmdb_to_country_ipranges env.importOk s.fs.mmdb) k1).2.2 := by
        rw [happly]
        exact hm
      have hw := applyLoop_effects_write env
        (parse_mmdb_to_country_ipranges env.importOk s.fs.mmdb) k1
        (Effect.iptablesAppend f r) h'
      simp [Effect.isIpsetWrite] at hw
  · intro m k hsf
    exact applyLoop_stepFailure env m k hsf

/-- Witness for C6: with `ipset restore` rejecting the batch, the rebuild
phase fails right after the apply trace, with no rule appended. -/
theorem C6_apply_failure_blocks_rules_witness :
    rebuildPhase
        { remote := Remote.notFound, downloadOk := true, importOk := true,
          listOk := true, createOk := fun _ => true, flushOk := fun _ => true,
          restoreOk := fun _ => false, iptOk := fun _ _ => true,
          cleanup := { listOk := true, deleteOk := true, ipsetListOk := true,
                       destroyOk := fun _ => true } } 2
        { fs := { lastCheck := none, hashFile := some dbKR, mmdb := some dbKR },
          kernel := { sets := [], chainV4 := [], chainV6 := [] } }
      = some (false,
          { fs := { lastCheck := none, hashFile := some dbKR, mmdb := some dbKR },
            kernel := { sets := ["country-KR"], chainV4 := [], chainV6 := [] } },
          [] ++ [Effect.ipsetCreate "country-KR", Effect.ipsetFlush "country-KR",
            Effect.ipsetRestore "country-KR" ["1.2.3.0/24"]]) ∧
    (∀ f r, Effect.iptablesAppend f r
        ∉ [] ++ [Effect.ipsetCreate "country-KR", Effect.ipsetFlush "country-KR",
            Effect.ipsetRestore "country-KR" ["1.2.3.0/24"]]) ∧
    (∀ (m : List (String × List String)) (k : Kernel),
      stepFailure
          { remote := Remote.notFound, downloadOk := true, importOk := true,
            listOk := true, createOk := fun _ => true, flushOk := fun _ => true,
            restoreOk := fun _ => false, iptOk := fun _ _ => true,
            cleanup := { listOk := true, deleteOk := true, ipsetListOk := true,
                         destroyOk := fun _ => true } }
          (apply_native_ipset
            { remote := Remote.notFound, downloadOk := true, importOk := true,
              listOk := true, createOk := fun _ => true, flushOk := fun _ => true,
              restoreOk := fun _ => false, iptOk := fun _ _ => true,
              cleanup := { listOk := true, deleteOk := true, ipsetListOk := true,
                           destroyOk := fun _ => true } } m k).2.2 →
      (apply_native_ipset
          { remote := Remote.notFound, downloadOk := true, importOk := true,
            listOk := true, createOk := fun _ => true, flushOk := fun _ => true,
            restoreOk := fun _ => false, iptOk := fun _ _ => true,
            cleanup := { listOk := true, deleteOk := true, ipsetListOk := true,
                         destroyOk := fun _ => true } } m k).1 = false) :=
  C6_apply_failure_blocks_rules
    { remote := Remote.notFound, downloadOk := true, importOk := true,
      listOk := true, createOk := fun _ => true, flushOk := fun _ => true,
      restoreOk := fun _ => false, iptOk := fun _ _ => true,
      cleanup := { listOk := true, deleteOk := true, ipsetListOk := true,
                   destroyOk := fun _ => true } } 2
    { fs := { lastCheck := none, hashFile := some dbKR, mmdb := some dbKR },
      kernel := { sets := [], chainV4 := [], chainV6 := [] } }
    { sets := [], chainV4 := [], chainV6 := [] }
    { sets := ["country-KR"], chainV4 := [], chainV6 := [] }
    [] [Effect.ipsetCreate "country-KR", Effect.ipsetFlush "country-KR",
        Effect.ipsetRestore "country-KR" ["1.2.3.0/24"]]
    (by decide) (by decide) (by decide)

theorem setupLoop_all_ok (env : Env) (hok : ∀ f r, env.iptOk f r = true) :
    ∀ (seq : List (Family × Rule)) (k : Kernel),
      (setupLoop env seq k).1 = true ∧
      (setupLoop env seq k).2.2
        = seq.map (fun p => Effect.iptablesAppend p.1 p.2) := by
  intro seq
  induction seq with
  | nil => intro k; exact ⟨rfl, rfl⟩
  | cons p rest ih =>
      intro k
      obtain ⟨f, r⟩ := p
      unfold setupLoop
      rw [if_pos (hok f r)]
      rcases hsl : setupLoop env rest (appendToChain k f r) with ⟨b, k', es⟩
      try rw [hsl]
      dsimp only
      have hih := ih (appendToChain k f r)
      rw [hsl] at hih
      dsimp only at hih
      refine ⟨hih.1, ?_⟩
      rw [List.map_cons, hih.2]

theorem setupLoop_sets (env : Env) :
    ∀ (seq : List (Family × Rule)) (k : Kernel),
      ((setupLoop env seq k).2.1).sets = k.sets := by
  intro seq
  induction seq with
  | nil => intro k; rfl
  | cons p rest ih =>
      intro k
      obtain ⟨f, r⟩ := p
      unfold setupLoop
      by_cases hok : env.iptOk f r = true
      · rw [if_pos hok]
        rcases hsl : setupLoop env rest (appendToChain k f r) with ⟨b, k', es⟩
        try rw [hsl]
        dsimp only
        have hih := ih (appendToChain k f r)
        rw [hsl] at hih
        dsimp only at hih
        rw [hih]
        cases f <;> rfl
      · rw [if_neg hok]

theorem setupLoop_true_effects (env : Env) :
    ∀ (seq : List (Family × Rule)) (k : Kernel),
      (setupLoop env seq k).1 = true →
      (setupLoop env seq k).2.2
        = seq.map (fun p => Effect.iptablesAppend p.1 p.2) := by
  intro seq
  induction seq with
  | nil => intro k _; rfl
  | cons p rest ih =>
      intro k ht
      obtain ⟨f, r⟩ := p
      unfold setupLoop at ht ⊢
      by_cases hok : env.iptOk f r = true
      · rw [if_pos hok] at ht ⊢
        rcases hsl : setupLoop env rest (appendToChain k f r) with ⟨b, k', es⟩
        try rw [hsl] at ht
        try rw [hsl]
        dsimp only at ht ⊢
        have hih := ih (appendToChain k f r)
        rw [hsl] at hih
        dsimp only at hih
        rw [List.map_cons, hih ht]
      · rw [if_neg hok] at ht
        simp at ht

theorem chainRules_map (f : Family) (seq : List (Family × Rule)) :
    chainRules f (seq.map (fun p => Effect.iptablesAppend p.1 p.2))
      = familyProj f seq := by
  unfold chainRules familyProj
  rw [List.filterMap_map]
  rfl

theorem familyProj_append (f : Family) (a b : List (Family × Rule)) :
    familyProj f (a ++ b) = familyProj f a ++ familyProj f b :=
  List.filterMap_append a b _

theorem familyProj_concatMap (f : Family) (g : α → List (Family × Rule)) :
    ∀ l : List α,
      familyProj f (concatMap g l)
        = concatMap (fun a => familyProj f (g a)) l := by
  intro l
  induction l with
  | nil => rfl
  | cons a as ih =>
      simp only [concatMap]
      rw [familyProj_append, ih]

theorem concatMap_congr (g h : α → List β) (hgh : ∀ a, g a = h a) :
    ∀ l : List α, concatMap g l = concatMap h l := by
  intro l
  induction l with
  | nil => rfl
  | cons a as ih => simp only [concatMap, hgh a, ih]

theorem familyProj_allowedCountryRules (ex : String → Bool) (cc : String)
    (f : Family) :
    familyProj f (allowedCountryRules ex cc)
      = if ex (familySetName f cc) then
          [Rule.countryLogAccept cc, Rule.countryAccept cc]
        else [] := by
  cases f <;>
  · unfold allowedCountryRules familySetName
    by_cases h4 : ex (setNameV4 cc) = true <;>
      by_cases h6 : ex (setNameV6 cc) = true <;>
        simp [h4, h6, familyProj, List.filterMap_append]

theorem familyProj_blockedCountryRules (ex : String → Bool) (cc : String)
    (f : Family) :
    familyProj f (blockedCountryRules ex cc)
      = if ex (familySetName f cc) then
          [Rule.countryLogDrop cc, Rule.countryDrop cc]
        else [] := by
  cases f <;>
  · unfold blockedCountryRules familySetName
    by_cases h4 : ex (setNameV4 cc) = true <;>
      by_cases h6 : ex (setNameV6 cc) = true <;>
        simp [h4, h6, familyProj, List.filterMap_append]

theorem familyProj_setupSequence (allowed all : List String)
    (ex : String → Bool) (f : Family) :
    familyProj f (setupSequence allowed all ex)
      = expectedChain allowed all ex f := by
  have hacc := concatMap_congr (fun cc => familyProj f (allowedCountryRules ex cc))
    (fun cc => if ex (familySetName f cc) then
      [Rule.countryLogAccept cc, Rule.countryAccept cc] else [])
    (fun cc => familyProj_allowedCountryRules ex cc f) allowed
  have hblk := concatMap_congr (fun cc => familyProj f (blockedCountryRules ex cc))
    (fun cc => if ex (familySetName f cc) then
      [Rule.countryLogDrop cc, Rule.countryDrop cc] else [])
    (fun cc => familyProj_blockedCountryRules ex cc f)
    (all.filter (fun c => !(allowed.contains c)))
  unfold setupSequence expectedChain acceptSection dropSection
  rw [familyProj_append, familyProj_append, familyProj_append,
    familyProj_append, familyProj_append, familyProj_concatMap,
    familyProj_concatMap, hacc, hblk]
  cases f <;> rfl

/-- C2: when every append command succeeds, `setup_firewall_rules` reports
success and, for each address family, the chain it appends is exactly
`expectedChain`: stateful accept, loopback accept, private-network accepts,
per-allowed-country log+accept, per-blocked-country log+drop, default
log+drop — in that relative order; in particular the default drop is in
the chain, the stateful accept sits at positional index 0, and the
positional index of the default drop is strictly greater. -/
theorem C2_chain_order (env : Env) (allowed all : List String) (k : Kernel)
    (hok : ∀ f r, env.iptOk f r = true) (f : Family) :
    (setup_firewall_rules env allowed all k).1 = true ∧
    chainRules f (setup_firewall_rules env allowed all k).2.2
      = expectedChain allowed all (fun n => k.sets.contains n) f ∧
    Rule.defaultDrop ∈ chainRules f (setup_firewall_rules env allowed all k).2.2 ∧
    rulePos Rule.stateful
      (chainRules f (setup_firewall_rules env allowed all k).2.2) = 0 ∧
    rulePos Rule.stateful
        (chainRules f (setup_firewall_rules env allowed all k).2.2)
      < rulePos Rule.defaultDrop
        (chainRules f (setup_firewall_rules env allowed all k).2.2) := by
  have hsl := setupLoop_all_ok env hok
    (setupSequence allowed all (fun n => k.sets.contains n)) k
  have heff : chainRules f (setup_firewall_rules env allowed all k).2.2
      = expectedChain allowed all (fun n => k.sets.contains n) f := by
    show chainRules f
        (setupLoop env (setupSequence allowed all (fun n => k.sets.contains n)) k).2.2
      = _
    rw [hsl.2, chainRules_map, familyProj_setupSequence]
  refine ⟨hsl.1, heff, ?_, ?_, ?_⟩
  · rw [heff]
    unfold expectedChain
    simp
  · rw [heff]
    unfold expectedChain
    simp [rulePos]
  · rw [heff]
    unfold expectedChain
    simp [rulePos]

/-- Witness for C2 on a concrete configuration: allow-list `KR`, observed
countries `KR` and `US`, a kernel holding only the `country-KR` v4 set. -/
theorem C2_chain_order_witness :
    (setup_firewall_rules (envAllOk Remote.notFound) ["KR"] ["KR", "US"]
        kernelKR).1 = true ∧
    chainRules Family.v4 (setup_firewall_rules (envAllOk Remote.notFound)
        ["KR"] ["KR", "US"] kernelKR).2.2
      = expectedChain ["KR"] ["KR", "US"] (fun n => kernelKR.sets.contains n)
          Family.v4 ∧
    Rule.defaultDrop ∈ chainRules Family.v4
      (setup_firewall_rules (envAllOk Remote.notFound) ["KR"] ["KR", "US"]
        kernelKR).2.2 ∧
    rulePos Rule.stateful (chainRules Family.v4
      (setup_firewall_rules (envAllOk Remote.notFound) ["KR"] ["KR", "US"]
        kernelKR).2.2) = 0 ∧
    rulePos Rule.stateful (chainRules Family.v4
        (setup_firewall_rules (envAllOk Remote.notFound) ["KR"] ["KR", "US"]
          kernelKR).2.2)
      < rulePos Rule.defaultDrop (chainRules Family.v4
        (setup_firewall_rules (envAllOk Remote.notFound) ["KR"] ["KR", "US"]
          kernelKR).2.2) :=
  C2_chain_order (envAllOk Remote.notFound) ["KR"] ["KR", "US"] kernelKR
    (fun f r => rfl) Family.v4

theorem setupLoop_effects_append (env : Env) :
    ∀ (seq : List (Family × Rule)) (k : Kernel),
      ∀ e ∈ (setupLoop env seq k).2.2, e.isRuleAppend = true := by
  intro seq
  induction seq with
  | nil => intro k e he; simp [setupLoop] at he
  | cons p rest ih =>
      intro k e he
      obtain ⟨f, r⟩ := p
      unfold setupLoop at he
      by_cases hok : env.iptOk f r = true
      · rw [if_pos hok] at he
        rcases hsl : setupLoop env rest (appendToChain k f r) with ⟨b, k', es⟩
        try rw [hsl] at he
        dsimp only at he
        rcases List.mem_cons.mp he with rfl | hm
        · rfl
        · refine ih (appendToChain k f r) e ?_
          rw [hsl]
          exact hm
      · rw [if_neg hok] at he
        simp at he
        subst he
        rfl

theorem rebuildPhase_no_network (env : Env) (fuel : Nat) (s : Sys)
    (b : Bool) (s' : Sys) (es : List Effect)
    (h : rebuildPhase env fuel s = some (b, s', es)) :
    ∀ e ∈ es, e.isNetwork = false := by
  unfold rebuildPhase at h
  dsimp only at h
  by_cases hm : (parse_mmdb_to_country_ipranges env.importOk s.fs.mmdb).isEmpty = true
  · rw [if_pos hm] at h
    simp only [Option.some.injEq, Prod.mk.injEq] at h
    obtain ⟨_, _, he⟩ := h
    subst he
    intro e he
    simp at he
  · rw [if_neg hm] at h
    rcases hcl : cleanup_existing_ipsets env.cleanup fuel s.kernel
      with _ | ⟨bc, k1, ce⟩
    · rw [hcl] at h; simp at h
    · rw [hcl] at h
      dsimp only at h
      rcases hap : apply_native_ipset env
          (parse_mmdb_to_country_ipranges env.importOk s.fs.mmdb) k1
        with ⟨ba, k2, ae⟩
      try rw [hap] at h
      have hce : ∀ e ∈ ce, e.isNetwork = false := by
        intro e he
        rcases cleanup_effects_shape env.cleanup fuel s.kernel bc k1 ce hcl e he
          with ⟨f', rfl⟩ | ⟨n', rfl⟩ <;> rfl
      have hae : ∀ e ∈ ae, e.isNetwork = false := by
        intro e he
        have hw := applyLoop_effects_write env
          (parse_mmdb_to_country_ipranges env.importOk s.fs.mmdb) k1 e
          (by
            show e ∈ (apply_native_ipset env
              (parse_mmdb_to_country_ipranges env.importOk s.fs.mmdb) k1).2.2
            rw [hap]
            exact he)
        cases e <;> first
          | rfl
          | simp [Effect.isIpsetWrite] at hw
      cases ba with
      | false =>
          dsimp only at h
          simp only [Option.some.injEq, Prod.mk.injEq] at h
          obtain ⟨_, _, he⟩ := h
          subst he
          intro e he
          rcases List.mem_append.mp he with hm1 | hm1
          · exact hce e hm1
          · exact hae e hm1
      | true =>
          dsimp only at h
          rcases hst : setup_firewall_rules env ALLOWED_COUNTRIES
              ((parse_mmdb_to_country_ipranges env.importOk s.fs.mmdb).map
                (fun p => p.1)) k2
            with ⟨bs, k3, se⟩
          try rw [hst] at h
          dsimp only at h
          simp only [Option.some.injEq, Prod.mk.injEq] at h
          obtain ⟨_, _, he⟩ := h
          subst he
          intro e he
          rcases List.mem_append.mp he with hm1 | hm1
          · rcases List.mem_append.mp hm1 with hm2 | hm2
            · exact hce e hm2
            · exact hae e hm2
          · have ha : e.isRuleAppend = true := by
                refine setupLoop_effects_append env (setupSequence
                  ALLOWED_COUNTRIES ((parse_mmdb_to_country_ipranges
                    env.importOk s.fs.mmdb).map (fun p => p.1))
                  (fun n => k2.sets.contains n)) k2 e ?_
                have hst' : setupLoop env (setupSequence ALLOWED_COUNTRIES
                    ((parse_mmdb_to_country_ipranges env.importOk
                      s.fs.mmdb).map (fun p => p.1))
                    (fun n => k2.sets.contains n)) k2 = (bs, k3, se) := hst
                rw [hst']
                exact hm1
            cases e <;> first
              | rfl
              | simp [Effect.isRuleAppend] at ha

theorem rebuildPhase_true_append (env : Env) (fuel : Nat) (s : Sys)
    (s' : Sys) (es : List Effect)
    (h : rebuildPhase env fuel s = some (true, s', es)) :
    Effect.iptablesAppend Family.v6 Rule.defaultDrop ∈ es := by
  unfold rebuildPhase at h
  dsimp only at h
  by_cases hm : (parse_mmdb_to_country_ipranges env.importOk s.fs.mmdb).isEmpty = true
  · rw [if_pos hm] at h
    simp at h
  · rw [if_neg hm] at h
    rcases hcl : cleanup_existing_ipsets env.cleanup fuel s.kernel
      with _ | ⟨bc, k1, ce⟩
    · rw [hcl] at h; simp at h
    · rw [hcl] at h
      dsimp only at h
      rcases hap : apply_native_ipset env
          (parse_mmdb_to_country_ipranges env.importOk s.fs.mmdb) k1
        with ⟨ba, k2, ae⟩
      try rw [hap] at h
      cases ba with
      | false =>
          dsimp only at h
          simp at h
      | true =>
          dsimp only at h
          rcases hst : setup_firewall_rules env ALLOWED_COUNTRIES
              ((parse_mmdb_to_country_ipranges env.importOk s.fs.mmdb).map
                (fun p => p.1)) k2
            with ⟨bs, k3, se⟩
          try rw [hst] at h
          dsimp only at h
          simp only [Option.some.injEq, Prod.mk.injEq] at h
          obtain ⟨hb, hs', he⟩ := h
          subst he
          have hst' : setupLoop env (setupSequence ALLOWED_COUNTRIES
              ((parse_mmdb_to_country_ipranges env.importOk
                s.fs.mmdb).map (fun p => p.1))
              (fun n => k2.sets.contains n)) k2 = (bs, k3, se) := hst
          have hfst : (setupLoop env (setupSequence ALLOWED_COUNTRIES
              ((parse_mmdb_to_country_ipranges env.importOk
                s.fs.mmdb).map (fun p => p.1))
              (fun n => k2.sets.contains n)) k2).1 = true := by
            rw [hst']
            exact hb
          have hse := setupLoop_true_effects env (setupSequence ALLOWED_COUNTRIES
            ((parse_mmdb_to_country_ipranges env.importOk
              s.fs.mmdb).map (fun p => p.1))
            (fun n => k2.sets.contains n)) k2 hfst
          rw [hst'] at hse
          dsimp only at hse
          refine List.mem_append.mpr (Or.inr ?_)
          rw [hse]
          refine List.mem_map.mpr ⟨(Family.v6, Rule.defaultDrop), ?_, rfl⟩
          unfold setupSequence
          simp

theorem rebuildPhase_effects_mutation (env : Env) (fuel : Nat) (s : Sys)
    (b : Bool) (s' : Sys) (es : List Effect)
    (h : rebuildPhase env fuel s = some (b, s', es)) :
    ∀ e ∈ es, e.isKernelMutation = true := by
  unfold rebuildPhase at h
  dsimp only at h
  by_cases hm : (parse_mmdb_to_country_ipranges env.importOk s.fs.mmdb).isEmpty = true
  · rw [if_pos hm] at h
    simp only [Option.some.injEq, Prod.mk.injEq] at h
    obtain ⟨_, _, he⟩ := h
    subst he
    intro e he
    simp at he
  · rw [if_neg hm] at h
    rcases hcl : cleanup_existing_ipsets env.cleanup fuel s.kernel
      with _ | ⟨bc, k1, ce⟩
    · rw [hcl] at h; simp at h
    · rw [hcl] at h
      dsimp only at h
      rcases hap : apply_native_ipset env
          (parse_mmdb_to_country_ipranges env.importOk s.fs.mmdb) k1
        with ⟨ba, k2, ae⟩
      try rw [hap] at h
      have hce : ∀ e ∈ ce, e.isKernelMutation = true := by
        intro e he
        rcases cleanup_effects_shape env.cleanup fuel s.kernel bc k1 ce hcl e he
          with ⟨f', rfl⟩ | ⟨n', rfl⟩ <;> rfl
      have hae : ∀ e ∈ ae, e.isKernelMutation = true := by
        intro e he
        have hw := applyLoop_effects_write env
          (parse_mmdb_to_country_ipranges env.importOk s.fs.mmdb) k1 e
          (by
            show e ∈ (apply_native_ipset env
              (parse_mmdb_to_country_ipranges env.importOk s.fs.mmdb) k1).2.2
            rw [hap]
            exact he)
        cases e <;> first
          | rfl
          | simp [Effect.isIpsetWrite] at hw
      cases ba with
      | false =>
          dsimp only at h
          simp only [Option.some.injEq, Prod.mk.injEq] at h
          obtain ⟨_, _, he⟩ := h
          subst he
          intro e he
          rcases List.mem_append.mp he with hm1 | hm1
          · exact hce e hm1
          · exact hae e hm1
      | true =>
          dsimp only at h
          rcases hst : setup_firewall_rules env ALLOWED_COUNTRIES
              ((parse_mmdb_to_country_ipranges env.importOk s.fs.mmdb).map
                (fun p => p.1)) k2
            with ⟨bs, k3, se⟩
          try rw [hst] at h
          dsimp only at h
          simp only [Option.some.injEq, Prod.mk.injEq] at h
          obtain ⟨_, _, he⟩ := h
          subst he
          intro e he
          rcases List.mem_append.mp he with hm1 | hm1
          · rcases List.mem_append.mp hm1 with hm2 | hm2
            · exact hce e hm2
            · exact hae e hm2
          · have ha : e.isRuleAppend = true := by
              refine setupLoop_effects_append env (setupSequence
                ALLOWED_COUNTRIES ((parse_mmdb_to_country_ipranges
                  env.importOk s.fs.mmdb).map (fun p => p.1))
                (fun n => k2.sets.contains n)) k2 e ?_
              have hst' : setupLoop env (setupSequence ALLOWED_COUNTRIES
                  ((parse_mmdb_to_country_ipranges env.importOk
                    s.fs.mmdb).map (fun p => p.1))
                  (fun n => k2.sets.contains n)) k2 = (bs, k3, se) := hst
              rw [hst']
              exact hm1
            cases e <;> first
              | rfl
              | simp [Effect.isRuleAppend] at ha

theorem isNetwork_false_of_mutation (e : Effect)
    (h : e.isKernelMutation = true) : e.isNetwork = false := by
  cases e <;> first
    | rfl
    | simp [Effect.isKernelMutation] at h

/-- C4: in the whole reboot-recovery branch (no country sets, database
file present) the run performs no network call at all; when the hash
baseline is absent it persists the content hash and then runs the rebuild
phase on the existing file, and when the baseline is already present the
run is exactly the rebuild phase on the existing file with no hash write;
on success the rebuilt rule chain is in the trace (witnessed by the final
v6 default-drop append). -/
theorem C4_reboot_recovery (env : Env) (fuel : Nat) (s : Sys) (d : Db)
    (hcount : countryCount env s.kernel = 0)
    (hmmdb : s.fs.mmdb = some d) :
    (∀ e ∈ effectsOf (smart_update env fuel s), e.isNetwork = false) ∧
    (s.fs.hashFile = none →
      smart_update env fuel s
        = (rebuildPhase env fuel
            { fs := { s.fs with hashFile := some d }, kernel := s.kernel }).map
            (fun r => (r.1, r.2.1, Effect.writeHash d :: r.2.2)) ∧
      ((smart_update env fuel s).isSome = true →
        Effect.writeHash d ∈ effectsOf (smart_update env fuel s))) ∧
    (s.fs.hashFile.isSome = true →
      smart_update env fuel s = rebuildPhase env fuel s ∧
      (∀ d', Effect.writeHash d' ∉ effectsOf (smart_update env fuel s))) ∧
    (runSucceeds (smart_update env fuel s) = true →
      Effect.iptablesAppend Family.v6 Rule.defaultDrop
        ∈ effectsOf (smart_update env fuel s)) := by
  by_cases hhash : s.fs.hashFile = none
  · -- hash baseline absent: persist it, then rebuild
    have hchk : check_file_hash_changed s.fs d
        = (true, { s.fs with hashFile := some d }, [Effect.writeHash d]) := by
      simp [check_file_hash_changed, hhash]
    have hnone : s.fs.hashFile.isNone = true := by
      rw [hhash]
      rfl
    have heq : smart_update env fuel s
        = (rebuildPhase env fuel
            { fs := { s.fs with hashFile := some d }, kernel := s.kernel }).map
            (fun r => (r.1, r.2.1, Effect.writeHash d :: r.2.2)) := by
      unfold smart_update
      rw [if_pos hcount, hmmdb, hnone]
      simp only [if_true]
      rw [hchk]
      dsimp only
      rcases hr : rebuildPhase env fuel
          { fs := { s.fs with hashFile := some d }, kernel := s.kernel }
        with _ | ⟨b, s', es'⟩ <;> rfl
    refine ⟨?_, fun _ => ⟨heq, ?_⟩, ?_, ?_⟩
    · intro e he
      rw [heq] at he
      rcases hr : rebuildPhase env fuel
          { fs := { s.fs with hashFile := some d }, kernel := s.kernel }
        with _ | ⟨b, s', es'⟩
      · rw [hr] at he
        simp [effectsOf] at he
      · rw [hr] at he
        simp only [Option.map_some, effectsOf] at he
        rcases List.mem_cons.mp he with rfl | hm
        · rfl
        · exact rebuildPhase_no_network env fuel
            { fs := { s.fs with hashFile := some d }, kernel := s.kernel }
            b s' es' hr e hm
    · intro hsome
      rw [heq] at hsome ⊢
      rcases hr : rebuildPhase env fuel
          { fs := { s.fs with hashFile := some d }, kernel := s.kernel }
        with _ | ⟨b, s', es'⟩
      · try rw [hr] at hsome
        simp at hsome
      · try rw [hr]
        simp only [Option.map_some, effectsOf]
        exact List.mem_cons_self _ _
    · intro hs
      rw [hhash] at hs
      simp at hs
    · intro hsucc
      rw [heq] at hsucc ⊢
      rcases hr : rebuildPhase env fuel
          { fs := { s.fs with hashFile := some d }, kernel := s.kernel }
        with _ | ⟨b, s', es'⟩
      · try rw [hr] at hsucc
        simp [runSucceeds] at hsucc
      · try rw [hr] at hsucc
        simp only [Option.map_some, runSucceeds] at hsucc
        try rw [hr]
        simp only [Option.map_some, effectsOf]
        refine List.mem_cons_of_mem _ ?_
        subst hsucc
        exact rebuildPhase_true_append env fuel
          { fs := { s.fs with hashFile := some d }, kernel := s.kernel }
          s' es' hr
  · -- hash baseline present: the run is the rebuild phase, no hash write
    have hnone : s.fs.hashFile.isNone = false := by
      rcases hfo : s.fs.hashFile with _ | x
      · exact absurd hfo hhash
      · simp [hfo]
    have heq : smart_update env fuel s = rebuildPhase env fuel s := by
      unfold smart_update
      rw [if_pos hcount, hmmdb, hnone]
      simp only [Bool.false_eq_true, if_false]
    have hmut : ∀ e ∈ effectsOf (smart_update env fuel s),
        e.isKernelMutation = true := by
      intro e he
      rw [heq] at he
      rcases hr : rebuildPhase env fuel s with _ | ⟨b, s', es'⟩
      · rw [hr] at he
        simp [effectsOf] at he
      · rw [hr] at he
        simp only [effectsOf] at he
        exact rebuildPhase_effects_mutation env fuel s b s' es' hr e he
    refine ⟨?_, ?_, fun _ => ⟨heq, ?_⟩, ?_⟩
    · intro e he
      exact isNetwork_false_of_mutation e (hmut e he)
    · intro h0
      exact absurd h0 hhash
    · intro d' hmem
      have hk := hmut _ hmem
      simp [Effect.isKernelMutation] at hk
    · intro hsucc
      rw [heq] at hsucc ⊢
      rcases hr : rebuildPhase env fuel s with _ | ⟨b, s', es'⟩
      · try rw [hr] at hsucc
        simp [runSucceeds] at hsucc
      · try rw [hr] at hsucc
        simp only [runSucceeds] at hsucc
        try rw [hr]
        simp only [effectsOf]
        subst hsucc
        exact rebuildPhase_true_append env fuel s s' es' hr

/-- Witness for C4 at a concrete reboot state whose hash baseline is
already present (database present, no sets, remote entirely absent — the
run needs no network and writes no hash). -/
theorem C4_reboot_recovery_witness :
    (∀ e ∈ effectsOf (smart_update (envAllOk Remote.notFound) 2
        { fs := { lastCheck := none, hashFile := some dbKR, mmdb := some dbKR },
          kernel := { sets := [], chainV4 := [], chainV6 := [] } }),
      e.isNetwork = false) ∧
    (({ lastCheck := none, hashFile := some dbKR, mmdb := some dbKR } : FS).hashFile
        = none →
      smart_update (envAllOk Remote.notFound) 2
          { fs := { lastCheck := none, hashFile := some dbKR, mmdb := some dbKR },
            kernel := { sets := [], chainV4 := [], chainV6 := [] } }
        = (rebuildPhase (envAllOk Remote.notFound) 2
            { fs := { lastCheck := none, hashFile := some dbKR, mmdb := some dbKR },
              kernel := { sets := [], chainV4 := [], chainV6 := [] } }).map
            (fun r => (r.1, r.2.1, Effect.writeHash dbKR :: r.2.2)) ∧
      ((smart_update (envAllOk Remote.notFound) 2
          { fs := { lastCheck := none, hashFile := some dbKR, mmdb := some dbKR },
            kernel := { sets := [], chainV4 := [], chainV6 := [] } }).isSome = true →
        Effect.writeHash dbKR ∈ effectsOf (smart_update (envAllOk Remote.notFound) 2
          { fs := { lastCheck := none, hashFile := some dbKR, mmdb := some dbKR },
            kernel := { sets := [], chainV4 := [], chainV6 := [] } }))) ∧
    (({ lastCheck := none, hashFile := some dbKR, mmdb := some dbKR } : FS).hashFile.isSome
        = true →
      smart_update (envAllOk Remote.notFound) 2
          { fs := { lastCheck := none, hashFile := some dbKR, mmdb := some dbKR },
            kernel := { sets := [], chainV4 := [], chainV6 := [] } }
        = rebuildPhase (envAllOk Remote.notFound) 2
          { fs := { lastCheck := none, hashFile := some dbKR, mmdb := some dbKR },
            kernel := { sets := [], chainV4 := [], chainV6 := [] } } ∧
      (∀ d', Effect.writeHash d' ∉ effectsOf (smart_update (envAllOk Remote.notFound) 2
          { fs := { lastCheck := none, hashFile := some dbKR, mmdb := some dbKR },
            kernel := { sets := [], chainV4 := [], chainV6 := [] } }))) ∧
    (runSucceeds (smart_update (envAllOk Remote.notFound) 2
        { fs := { lastCheck := none, hashFile := some dbKR, mmdb := some dbKR },
          kernel := { sets := [], chainV4 := [], chainV6 := [] } }) = true →
      Effect.iptablesAppend Family.v6 Rule.defaultDrop
        ∈ effectsOf (smart_update (envAllOk Remote.notFound) 2
          { fs := { lastCheck := none, hashFile := some dbKR, mmdb := some dbKR },
            kernel := { sets := [], chainV4 := [], chainV6 := [] } })) :=
  C4_reboot_recovery (envAllOk Remote.notFound) 2
    { fs := { lastCheck := none, hashFile := some dbKR, mmdb := some dbKR },
      kernel := { sets := [], chainV4 := [], chainV6 := [] } }
    dbKR (by decide) rfl

theorem insertRange_values :
    ∀ (m : List (String × List String)) (cc cidr : String),
      (∀ p ∈ m, p.2 ≠ []) → ∀ p ∈ insertRange m cc cidr, p.2 ≠ [] := by
  intro m
  induction m with
  | nil =>
      intro cc cidr _ p hp
      simp only [insertRange, List.mem_singleton] at hp
      subst hp
      simp
  | cons q rest ih =>
      intro cc cidr h p hp
      obtain ⟨c, rs⟩ := q
      unfold insertRange at hp
      by_cases hc : c = cc
      · rw [if_pos hc] at hp
        rcases List.mem_cons.mp hp with rfl | hm
        · simp
        · exact h p (List.mem_cons_of_mem _ hm)
      · rw [if_neg hc] at hp
        rcases List.mem_cons.mp hp with rfl | hm
        · exact h (c, rs) (List.mem_cons_self _ _)
        · exact ih cc cidr (fun q hq => h q (List.mem_cons_of_mem _ hq)) p hm

theorem parseRecords_loop_values :
    ∀ (recs : List (Option String × String)) (m : List (String × List String)),
      (∀ p ∈ m, p.2 ≠ []) →
      ∀ p ∈ recs.foldl
        (fun m r =>
          match r.1 with
          | none => m
          | some cc => insertRange m cc r.2) m,
        p.2 ≠ [] := by
  intro recs
  induction recs with
  | nil => intro m h p hp; exact h p hp
  | cons r rest ih =>
      intro m h p hp
      simp only [List.foldl_cons] at hp
      rcases hr1 : r.1 with _ | cc
      · rw [hr1] at hp
        exact ih m h p hp
      · rw [hr1] at hp
        exact ih (insertRange m cc r.2) (insertRange_values m cc r.2 h) p hp

theorem parse_values_ne_nil (importOk : Bool) (mmdb : Option Db) :
    ∀ p ∈ parse_mmdb_to_country_ipranges importOk mmdb, p.2 ≠ [] := by
  intro p hp
  unfold parse_mmdb_to_country_ipranges at hp
  by_cases hio : importOk = true
  · rw [if_pos hio] at hp
    rcases mmdb with _ | d
    · simp at hp
    · rcases d with _ | recs
      · simp at hp
      · unfold parseRecords at hp
        exact parseRecords_loop_values recs []
          (by intro q hq; simp at hq) p hp
  · rw [if_neg hio] at hp
    simp at hp

theorem applySet_insert_mem (k : Kernel) (nm : String) :
    nm ∈ (if k.sets.contains nm then k
          else { k with sets := k.sets ++ [nm] }).sets := by
  by_cases hmem : k.sets.contains nm = true
  · rw [if_pos hmem]
    simpa using hmem
  · rw [if_neg hmem]
    exact List.mem_append.mpr (Or.inr (List.mem_singleton.mpr rfl))

theorem applySet_true_mem (env : Env) (nm : String) (ips0 : List String)
    (k k' : Kernel) (es : List Effect)
    (h : applySet env nm ips0 k = (true, k', es)) : nm ∈ k'.sets := by
  unfold applySet at h
  by_cases hc : env.createOk nm = true
  · rw [if_pos hc] at h
    dsimp only at h
    by_cases hf : env.flushOk nm = true
    · rw [if_pos hf] at h
      by_cases hr : env.restoreOk nm = true
      · rw [if_pos hr] at h
        simp only [Prod.mk.injEq] at h
        obtain ⟨_, hk, _⟩ := h
        rw [← hk]
        exact applySet_insert_mem k nm
      · rw [if_neg hr] at h
        simp at h
    · rw [if_neg hf] at h
      simp at h
  · rw [if_neg hc] at h
    simp at h

theorem applySet_sets_mono (env : Env) (nm : String) (ips0 : List String)
    (k : Kernel) : ∀ n ∈ k.sets, n ∈ ((applySet env nm ips0 k).2.1).sets := by
  intro n hn
  unfold applySet
  by_cases hc : env.createOk nm = true
  · rw [if_pos hc]
    dsimp only
    have hk' : n ∈ (if k.sets.contains nm then k
        else { k with sets := k.sets ++ [nm] }).sets := by
      by_cases hm : k.sets.contains nm = true
      · rw [if_pos hm]; exact hn
      · rw [if_neg hm]
        exact List.mem_append.mpr (Or.inl hn)
    by_cases hf : env.flushOk nm = true
    · rw [if_pos hf]
      by_cases hr : env.restoreOk nm = true
      · rw [if_pos hr]; exact hk'
      · rw [if_neg hr]; exact hk'
    · rw [if_neg hf]; exact hk'
  · rw [if_neg hc]; exact hn

theorem applyCountry_sets_mono (env : Env) (cc : String) (rs : List String)
    (k : Kernel) : ∀ n ∈ k.sets, n ∈ ((applyCountry env cc rs k).2.1).sets := by
  intro n hn
  unfold applyCountry
  dsimp only
  by_cases h4 : (rs.filter (fun s => !pyContainsColon s)).isEmpty = true
  · rw [if_pos h4]
    by_cases h6 : (rs.filter pyContainsColon).isEmpty = true
    · rw [if_pos h6]; exact hn
    · rw [if_neg h6]
      exact applySet_sets_mono env (setNameV6 cc) _ k n hn
  · rw [if_neg h4]
    rcases hs : applySet env (setNameV4 cc)
        (rs.filter (fun s => !pyContainsColon s)) k with ⟨b1, k1, es1⟩
    try rw [hs]
    have hn1 : n ∈ k1.sets := by
      have := applySet_sets_mono env (setNameV4 cc)
        (rs.filter (fun s => !pyContainsColon s)) k n hn
      rw [hs] at this
      exact this
    cases b1 with
    | false => exact hn1
    | true =>
        dsimp only
        by_cases h6 : (rs.filter pyContainsColon).isEmpty = true
        · rw [if_pos h6]; exact hn1
        · rw [if_neg h6]
          rcases hs6 : applySet env (setNameV6 cc) (rs.filter pyContainsColon) k1
            with ⟨b2, k2, es2⟩
          try rw [hs6]
          dsimp only
          have := applySet_sets_mono env (setNameV6 cc)
            (rs.filter pyContainsColon) k1 n hn1
          rw [hs6] at this
          exact this

theorem applyLoop_sets_mono (env : Env) :
    ∀ (m : List (String × List String)) (k : Kernel),
      ∀ n ∈ k.sets, n ∈ ((applyLoop env m k).2.1).sets := by
  intro m
  induction m with
  | nil => intro k n hn; exact hn
  | cons p rest ih =>
      intro k n hn
      obtain ⟨cc, rs⟩ := p
      unfold applyLoop
      rcases hac : applyCountry env cc rs k with ⟨b1, k1, es1⟩
      try rw [hac]
      have hn1 : n ∈ k1.sets := by
        have := applyCountry_sets_mono env cc rs k n hn
        rw [hac] at this
        exact this
      cases b1 with
      | false => exact hn1
      | true =>
          dsimp only
          rcases hal : applyLoop env rest k1 with ⟨b2, k2, es2⟩
          try rw [hal]
          dsimp only
          have := ih k1 n hn1
          rw [hal] at this
          exact this

theorem filter_partition_ne_nil (rs : List String) (hrs : rs ≠ [])
    (h4 : (rs.filter (fun s => !pyContainsColon s)).isEmpty = true)
    (h6 : (rs.filter pyContainsColon).isEmpty = true) : False := by
  rcases rs with _ | ⟨a, tl⟩
  · exact hrs rfl
  · by_cases hc : pyContainsColon a = true
    · have hm : a ∈ (a :: tl).filter pyContainsColon :=
        List.mem_filter.mpr ⟨List.mem_cons_self _ _, hc⟩
      rw [List.isEmpty_iff.mp h6] at hm
      simp at hm
    · have hm : a ∈ (a :: tl).filter (fun s => !pyContainsColon s) :=
        List.mem_filter.mpr ⟨List.mem_cons_self _ _, by simp [hc]⟩
      rw [List.isEmpty_iff.mp h4] at hm
      simp at hm

theorem applyCountry_true_mem (env : Env) (cc : String) (rs : List String)
    (k k' : Kernel) (es : List Effect) (hrs : rs ≠ [])
    (h : applyCountry env cc rs k = (true, k', es)) :
    ∃ n ∈ k'.sets, pyStartsWith n "country-" = true := by
  unfold applyCountry at h
  dsimp only at h
  by_cases h4 : (rs.filter (fun s => !pyContainsColon s)).isEmpty = true
  · rw [if_pos h4] at h
    by_cases h6 : (rs.filter pyContainsColon).isEmpty = true
    · exact (filter_partition_ne_nil rs hrs h4 h6).elim
    · rw [if_neg h6] at h
      refine ⟨setNameV6 cc, applySet_true_mem env (setNameV6 cc) _ k k' es h, ?_⟩
      exact pyStartsWith_append2 "country-" cc "-v6"
  · rw [if_neg h4] at h
    rcases hs : applySet env (setNameV4 cc)
        (rs.filter (fun s => !pyContainsColon s)) k with ⟨b1, k1, es1⟩
    try rw [hs] at h
    cases b1 with
    | false => dsimp only at h; simp at h
    | true =>
        dsimp only at h
        have hmem1 : setNameV4 cc ∈ k1.sets :=
          applySet_true_mem env (setNameV4 cc) _ k k1 es1 hs
        by_cases h6 : (rs.filter pyContainsColon).isEmpty = true
        · rw [if_pos h6] at h
          simp only [Prod.mk.injEq] at h
          obtain ⟨_, hk, _⟩ := h
          rw [← hk]
          exact ⟨setNameV4 cc, hmem1, pyStartsWith_append "country-" cc⟩
        · rw [if_neg h6] at h
          rcases hs6 : applySet env (setNameV6 cc) (rs.filter pyContainsColon) k1
            with ⟨b2, k2, es2⟩
          try rw [hs6] at h
          dsimp only at h
          simp only [Prod.mk.injEq] at h
          obtain ⟨_, hk, _⟩ := h
          rw [← hk]
          have := applySet_sets_mono env (setNameV6 cc)
            (rs.filter pyContainsColon) k1 (setNameV4 cc) hmem1
          rw [hs6] at this
          exact ⟨setNameV4 cc, this, pyStartsWith_append "country-" cc⟩

theorem applyLoop_true_mem (env : Env) (cc : String) (rs : List String)
    (rest : List (String × List String)) (k k' : Kernel) (es : List Effect)
    (hrs : rs ≠ [])
    (h : applyLoop env ((cc, rs) :: rest) k = (true, k', es)) :
    ∃ n ∈ k'.sets, pyStartsWith n "country-" = true := by
  unfold applyLoop at h
  rcases hac : applyCountry env cc rs k with ⟨b1, k1, es1⟩
  try rw [hac] at h
  cases b1 with
  | false => dsimp only at h; simp at h
  | true =>
      dsimp only at h
      rcases hal : applyLoop env rest k1 with ⟨b2, k2, es2⟩
      try rw [hal] at h
      dsimp only at h
      simp only [Prod.mk.injEq] at h
      obtain ⟨_, hk, _⟩ := h
      rw [← hk]
      obtain ⟨n, hn, hpre⟩ := applyCountry_true_mem env cc rs k k1 es1 hrs hac
      have := applyLoop_sets_mono env rest k1 n hn
      rw [hal] at this
      exact ⟨n, this, hpre⟩

theorem countryCount_pos (env : Env) (k : Kernel) (hlist : env.listOk = true)
    (n : String) (hn : n ∈ k.sets) (hp : pyStartsWith n "country-" = true) :
    ¬countryCount env k = 0 := by
  unfold countryCount
  rw [if_pos hlist]
  have hm : n ∈ k.sets.filter (fun s => pyStartsWith s "country-") :=
    List.mem_filter.mpr ⟨hn, hp⟩
  intro h0
  rw [List.length_eq_zero.mp h0] at hm
  simp at hm

theorem rebuildPhase_true_kernel (env : Env) (fuel : Nat) (s : Sys)
    (s' : Sys) (es : List Effect)
    (h : rebuildPhase env fuel s = some (true, s', es)) :
    s'.fs = s.fs ∧ ∃ n ∈ s'.kernel.sets, pyStartsWith n "country-" = true := by
  unfold rebuildPhase at h
  dsimp only at h
  have hval : ∀ p ∈ parse_mmdb_to_country_ipranges env.importOk s.fs.mmdb,
      p.2 ≠ [] := parse_values_ne_nil env.importOk s.fs.mmdb
  generalize hmm : parse_mmdb_to_country_ipranges env.importOk s.fs.mmdb = m0 at h hval
  by_cases hm : m0.isEmpty = true
  · rw [if_pos hm] at h
    simp at h
  · rw [if_neg hm] at h
    rcases hcl : cleanup_existing_ipsets env.cleanup fuel s.kernel
      with _ | ⟨bc, k1, ce⟩
    · rw [hcl] at h; simp at h
    · rw [hcl] at h
      dsimp only at h
      rcases hap : apply_native_ipset env m0 k1 with ⟨ba, k2, ae⟩
      try rw [hap] at h
      cases ba with
      | false => dsimp only at h; simp at h
      | true =>
          dsimp only at h
          rcases hst : setup_firewall_rules env ALLOWED_COUNTRIES
              (m0.map (fun p => p.1)) k2 with ⟨bs, k3, se⟩
          try rw [hst] at h
          dsimp only at h
          simp only [Option.some.injEq, Prod.mk.injEq] at h
          obtain ⟨hb, hs', he⟩ := h
          have hsets : k3.sets = k2.sets := by
            have hss := setupLoop_sets env (setupSequence ALLOWED_COUNTRIES
              (m0.map (fun p => p.1)) (fun n => k2.sets.contains n)) k2
            have hst' : setupLoop env (setupSequence ALLOWED_COUNTRIES
                (m0.map (fun p => p.1)) (fun n => k2.sets.contains n)) k2
              = (bs, k3, se) := hst
            rw [hst'] at hss
            exact hss
          rcases hm0 : m0 with _ | ⟨⟨cc, rs⟩, rest⟩
          · rw [hm0] at hm; simp at hm
    -- nonempty map: the head country's set survives to the final kernel
          · have hrs : rs ≠ [] := by
              refine hval (cc, rs) ?_
              rw [hm0]
              exact List.mem_cons_self _ _
            have hap' : applyLoop env ((cc, rs) :: rest) k1 = (true, k2, ae) := by
              rw [← hm0]
              exact hap
            obtain ⟨n, hn, hpre⟩ :=
              applyLoop_true_mem env cc rs rest k1 k2 ae hrs hap'
            rw [← hs']
            exact ⟨rfl, n, by rw [show (Sys.mk s.fs k3).kernel.sets = k3.sets from rfl, hsets]; exact hn, hpre⟩

/-- C9 (amended): for two consecutive runs with no remote change and no
local change between them, where the FIRST run starts in the steady state
(country sets and database file present) and succeeds, the second run
performs zero kernel mutations — it returns `True` immediately after the
metadata check.  (When the first run is a first-install or recovery run the
property fails, because those paths never persist the remote-metadata
baseline — see the counterexample.) -/
theorem C9_second_run_no_mutation (env : Env) (fuel fuel2 : Nat) (s s1 : Sys)
    (es1 : List Effect) (d : Db)
    (hlist : env.listOk = true)
    (hcount : ¬countryCount env s.kernel = 0)
    (hmmdb : s.fs.mmdb = some d)
    (hrun1 : smart_update env fuel s = some (true, s1, es1)) :
    smart_update env fuel2 s1 = some (true, s1, [Effect.headRequest]) ∧
    kernelMutationCount (smart_update env fuel2 s1) = 0 := by
  have key : smart_update env fuel2 s1
      = some (true, s1, [Effect.headRequest]) := by
    unfold smart_update at hrun1
    rw [if_neg hcount, hmmdb] at hrun1
    dsimp only at hrun1
    rcases hre : env.remote with _ | ⟨meta, c⟩ | _
    · -- 404: nothing was written, the second run sees the same state
      try rw [hre] at hrun1
      simp only [check_remote_file_changed] at hrun1
      simp only [Option.some.injEq, Prod.mk.injEq] at hrun1
      obtain ⟨_, hs1, _⟩ := hrun1
      have hs1' : s1 = s := by rw [← hs1]
      rw [hs1']
      exact steady_noChange env fuel2 s d hcount hmmdb (by rw [hre]; rfl)
    · -- metadata available
      try rw [hre] at hrun1
      by_cases hl : s.fs.lastCheck = some meta
      · -- matched: first run wrote nothing
        simp only [check_remote_file_changed] at hrun1
        rw [if_pos hl] at hrun1
        dsimp only at hrun1
        simp only [Option.some.injEq, Prod.mk.injEq] at hrun1
        obtain ⟨_, hs1, _⟩ := hrun1
        have hs1' : s1 = s := by rw [← hs1]
        rw [hs1']
        refine steady_noChange env fuel2 s d hcount hmmdb ?_
        rw [hre]
        simp [check_remote_file_changed, hl]
      · -- change detected: the first run persisted the new metadata
        simp only [check_remote_file_changed] at hrun1
        rw [if_neg hl] at hrun1
        dsimp only at hrun1
        by_cases hdl : env.downloadOk = true
        · simp only [download_dbip_database] at hrun1
          rw [if_pos hdl] at hrun1
          dsimp only at hrun1
          by_cases hh : s.fs.hashFile = some c
          · -- identical content: run ends after the hash check
            have hchk : check_file_hash_changed
                { lastCheck := some meta, hashFile := s.fs.hashFile,
                  mmdb := some c } c
                = (false,
                  { lastCheck := some meta, hashFile := s.fs.hashFile,
                    mmdb := some c }, []) := by
              simp [check_file_hash_changed, hh]
            rw [hchk] at hrun1
            dsimp only at hrun1
            simp only [Option.some.injEq, Prod.mk.injEq] at hrun1
            obtain ⟨_, hs1, _⟩ := hrun1
            rw [← hs1]
            refine steady_noChange env fuel2
              (Sys.mk (FS.mk (some meta) s.fs.hashFile (some c)) s.kernel)
              c hcount rfl ?_
            rw [hre]
            simp [check_remote_file_changed]
          · -- rebuild: invert the successful rebuild phase
            have hchk : check_file_hash_changed
                { lastCheck := some meta, hashFile := s.fs.hashFile,
                  mmdb := some c } c
                = (true, FS.mk (some meta) (some c) (some c),
                    [Effect.writeHash c]) := by
              simp [check_file_hash_changed, hh]
            rw [hchk] at hrun1
            dsimp only at hrun1
            rcases hr : rebuildPhase env fuel
                (Sys.mk (FS.mk (some meta) (some c) (some c)) s.kernel)
              with _ | ⟨b, s', es'⟩
            · try rw [hr] at hrun1
              simp at hrun1
            · try rw [hr] at hrun1
              dsimp only at hrun1
              simp only [Option.some.injEq, Prod.mk.injEq] at hrun1
              obtain ⟨hb, hs1, _⟩ := hrun1
              subst hb
              subst hs1
              obtain ⟨hfs, n, hn, hpre⟩ := rebuildPhase_true_kernel env fuel
                (Sys.mk (FS.mk (some meta) (some c) (some c)) s.kernel) s' es' hr
              have hc1 := countryCount_pos env s'.kernel hlist n hn hpre
              refine steady_noChange env fuel2 s' c hc1 ?_ ?_
              · rw [hfs]
              · rw [hre]
                simp [check_remote_file_changed, hfs]
        · simp only [download_dbip_database] at hrun1
          rw [if_neg hdl] at hrun1
          dsimp only at hrun1
          simp at hrun1
    · -- transport error: the first run raised, contradiction
      try rw [hre] at hrun1
      simp only [check_remote_file_changed] at hrun1
      simp at hrun1
  refine ⟨key, ?_⟩
  rw [key]
  rfl

/-- Witness for C9 (amended): after a steady-state run that found nothing
to do, the next run is again mutation-free. -/
theorem C9_second_run_no_mutation_witness :
    smart_update (envAllOk (Remote.avail "m" dbKR)) 8 sysSteady
      = some (true, sysSteady, [Effect.headRequest]) ∧
    kernelMutationCount
      (smart_update (envAllOk (Remote.avail "m" dbKR)) 8 sysSteady) = 0 :=
  C9_second_run_no_mutation (envAllOk (Remote.avail "m" dbKR)) 8 8
    sysSteady sysSteady [Effect.headRequest] dbKR rfl (by decide) rfl
    (by decide)

/-- C9 counterexample: a successful first-install run (which never persists
the remote-metadata baseline) followed, with no remote and no local change
in between, by a second run that re-downloads, destroys and recreates the
sets and rebuilds the chain: the second run performs kernel mutations. -/
theorem C9_counterexample :
    runSucceeds (smart_update envC9 12 sysEmpty) = true ∧
    kernelMutationCount (smart_update envC9 12
      (sysAfter (smart_update envC9 12 sysEmpty) sysEmpty)) ≠ 0 := by
  decide
